import Mathlib

/-!
Verification of the STMAHM host-discovery and monitoring engine.

This file gives a shallow embedding, in Lean 4, of the parts of the Rust
source that the verified properties talk about:

* `src/src/network/subnet.rs` — subnet range calculation (`calculate_subnet_ips`,
  `is_special_address`), together with a model of the `ipnetwork` crate's
  `Ipv4Network` value (address + prefix length, network/broadcast derivation,
  ascending iteration over the whole block).
* `src/src/network/dns.rs` — `reverse_lookup` and `dns_scan`.
* `src/src/main.rs` — the CLI pipeline `scan_network` (phase composition,
  discovery-method tagging, local-host entry, sorting).
* `src/src/monitor/watcher.rs` — the `BackgroundMonitor` state machine
  (`start`/`stop`/`status`), one iteration of its scan loop,
  `run_background_scan`, and the snapshot diff `detect_and_emit_changes`.

Modelling conventions:

* IPv4 addresses are represented by their numeric 32-bit value as a `Nat`
  (the Rust code moves between `Ipv4Addr` and its dotted-decimal `String`
  via `to_string`/`parse`, which round-trips; ordering and equality agree).
* MAC addresses are represented by their canonical display text (`String`),
  which is how the watcher and pipeline consume them.
* `HashMap`s are represented as association lists; where a theorem needs the
  `HashMap` key-uniqueness invariant it takes it as a `Nodup` hypothesis.
* Effectful phases whose implementations live outside the sources at hand
  (raw-socket ARP, ICMP, TCP, the OS resolver, vendor/device inference) are
  parameters ("oracles"): each scan driver takes the phase outcomes as input
  and the theorems quantify over them.
* Fallible Rust functions returning `Result` become `Except String`.
-/

namespace STMAHM

/-! ### Interface model (`src/src/models.rs`, `InterfaceInfo`)

The `pnet_interface` handle is omitted: it is only consumed by the raw-socket
scanners, which are oracle parameters here. -/

structure InterfaceInfo where
  name : String
  ip : Nat
  mac : String
  prefix_len : Nat
deriving Repr, DecidableEq

/-! ### `Ipv4Network` (model of the `ipnetwork` crate as used by `subnet.rs`)

An `Ipv4Network` stores an address and a prefix length.  `network()` masks the
address down to the block start (expressed arithmetically: clearing the low
`32 - prefix_len` bits of `addr` is `addr / 2^(32-p) * 2^(32-p)`),
`broadcast()` is the block end, and iteration yields every address of the
block in ascending order, network and broadcast included.
`Ipv4Network::new` fails when the prefix exceeds 32 bits. -/

structure Ipv4Network where
  addr : Nat
  prefix_len : Nat
deriving Repr, DecidableEq

def Ipv4Network.new (ip : Nat) (p : Nat) : Except String Ipv4Network :=
  if p ≤ 32 then .ok ⟨ip, p⟩ else .error "invalid prefix"

def Ipv4Network.size (n : Ipv4Network) : Nat := 2 ^ (32 - n.prefix_len)

def Ipv4Network.network (n : Ipv4Network) : Nat := n.addr / n.size * n.size

def Ipv4Network.broadcast (n : Ipv4Network) : Nat := n.network + n.size - 1

def Ipv4Network.iter (n : Ipv4Network) : List Nat :=
  (List.range n.size).map (fun i => n.network + i)

/-- Dotted-decimal text of an IPv4 value (Rust `Ipv4Addr::to_string`). -/
def ipToString (ip : Nat) : String :=
  toString (ip / 16777216 % 256) ++ "." ++ toString (ip / 65536 % 256) ++ "."
    ++ toString (ip / 256 % 256) ++ "." ++ toString (ip % 256)

/-- CIDR text of a network (Rust `Ipv4Network` `Display`). -/
def Ipv4Network.toCidrString (n : Ipv4Network) : String :=
  ipToString n.addr ++ "/" ++ toString n.prefix_len

/-! ### Subnet calculator (`src/src/network/subnet.rs`) -/

/-- `is_special_address`: true for the network or directed-broadcast address. -/
def is_special_address (ip : Nat) (subnet : Ipv4Network) : Bool :=
  ip == subnet.network || ip == subnet.broadcast

/-- `calculate_subnet_ips`: derive the subnet from `(ip, prefix_len)` and list
every address of the block except the network and broadcast addresses. -/
def calculate_subnet_ips (interface : InterfaceInfo) :
    Except String (Ipv4Network × List Nat) := do
  let network ← Ipv4Network.new interface.ip interface.prefix_len
  let subnet ← Ipv4Network.new network.network interface.prefix_len
  let ips := subnet.iter.filter (fun ip => !(is_special_address ip subnet))
  .ok (subnet, ips)

example :
    calculate_subnet_ips ⟨"eth0", 6, "AA:BB:CC:DD:EE:FF", 30⟩ =
      .ok (⟨4, 30⟩, [5, 6]) := rfl

example :
    calculate_subnet_ips ⟨"eth0", 6, "AA:BB:CC:DD:EE:FF", 31⟩ =
      .ok (⟨6, 31⟩, []) := rfl

/-! ### SNMP data model (shape taken from the `snmp_enrich` consumers in
`src/src/main.rs`; the scanner implementation itself is an oracle). -/

structure SnmpNeighbor where
  local_port : String
  remote_device : String
  remote_port : String
  remote_ip : Option String
deriving Repr, DecidableEq

structure SnmpData where
  hostname : Option String
  system_description : Option String
  uptime_seconds : Option Nat
  neighbors : List SnmpNeighbor
deriving Repr, DecidableEq

structure NeighborInfo where
  local_port : String
  remote_device : String
  remote_port : String
  remote_ip : Option String
deriving Repr, DecidableEq

/-! ### Host and scan records, as populated by `scan_network` in
`src/src/main.rs`.  (The library's `HostInfo` in `models.rs` carries further
enrichment fields — vendor, ttl, risk score — that this CLI pipeline does not
populate and that none of the verified claims about it mention.) -/

structure HostInfo where
  ip : Nat
  mac : String
  response_time_ms : Option Nat
  open_ports : List Nat
  discovery_method : String
  hostname : Option String
  system_description : Option String
  uptime_seconds : Option Nat
  neighbors : List NeighborInfo
deriving Repr, DecidableEq

structure ScanResult where
  interface_name : String
  local_ip : Nat
  local_mac : String
  subnet : String
  scan_method : String
  arp_discovered : Nat
  icmp_discovered : Nat
  total_hosts : Nat
  scan_duration_ms : Nat
  active_hosts : List HostInfo
deriving Repr, DecidableEq

/-- `HashMap::get` over the association-list representation. -/
def mapGet {κ α : Type} [BEq κ] (m : List (κ × α)) (k : κ) : Option α :=
  (m.find? (fun p => p.1 == k)).map (·.2)

/-- `HashMap::contains_key` over the association-list representation. -/
def containsKey {κ α : Type} [BEq κ] (m : List (κ × α)) (k : κ) : Bool :=
  (mapGet m k).isSome

/-- `config.rs`: SNMP enrichment is compiled out. -/
def SNMP_ENABLED : Bool := false

/-- Outcomes of the effectful phases of one `main.rs` scan.  The ARP, ICMP,
TCP and SNMP scanner bodies live in `scanner/*.rs`; here each is the
`Result` value its call site receives.  `elapsed_ms` stands for the wall
clock the pipeline measures. -/
structure MainScanOracles where
  arp : Except String (List (Nat × String))
  icmp : Except String (List (Nat × Nat))
  tcp : Except String (List (Nat × List Nat))
  snmp_enrich : Except String (List (Nat × SnmpData))
  elapsed_ms : Nat

/-- The SNMP data `scan_network` works with: `snmp_enrich(..).unwrap_or_default()`
when the feature is enabled, the empty map otherwise. -/
def snmpDataOf (o : MainScanOracles) : List (Nat × SnmpData) :=
  if SNMP_ENABLED then (o.snmp_enrich.toOption.getD []) else []

/-- Host assembly for one ARP entry `(ip, mac)` (body of the `map` closure in
`scan_network`).  The Rust code computes the tag with a `match` on the pair
`(response_time.is_some(), !open_ports.is_empty())`; the nested conditionals
below enumerate the same four arms. -/
def build_host (response_times : List (Nat × Nat)) (port_results : List (Nat × List Nat))
    (snmp_data : List (Nat × SnmpData)) (p : Nat × String) : HostInfo :=
  let ip := p.1
  let mac := p.2
  let response_time := mapGet response_times ip
  let open_ports := (mapGet port_results ip).getD []
  let snmp := mapGet snmp_data ip
  let base : String :=
    if response_time.isSome then
      if open_ports.isEmpty then "ARP+ICMP" else "ARP+ICMP+TCP"
    else
      if open_ports.isEmpty then "ARP" else "ARP+TCP"
  let method := if snmp.isSome then base ++ "+SNMP" else base
  { ip := ip
    mac := mac
    response_time_ms := response_time
    open_ports := open_ports
    discovery_method := method
    hostname := (snmp.bind (·.hostname))
    system_description := (snmp.bind (·.system_description))
    uptime_seconds := (snmp.bind (·.uptime_seconds))
    neighbors := ((snmp.map (fun s => s.neighbors.map
      (fun n => ⟨n.local_port, n.remote_device, n.remote_port, n.remote_ip⟩))).getD []) }

/-- The synthetic entry for the local machine (`scan_network`, "Add local
machine to results"). -/
def local_host (interface : InterfaceInfo) : HostInfo :=
  { ip := interface.ip
    mac := interface.mac
    response_time_ms := some 0
    open_ports := []
    discovery_method := "LOCAL"
    hostname := none
    system_description := none
    uptime_seconds := none
    neighbors := [] }

/-- The comparison `scan_network` sorts `active_hosts` with (numeric order of
the parsed IPs). -/
def hostIpLe (a b : HostInfo) : Prop := a.ip ≤ b.ip

instance : DecidableRel hostIpLe := fun a b => Nat.decLe a.ip b.ip

instance : IsTotal HostInfo hostIpLe := ⟨fun a b => Nat.le_total a.ip b.ip⟩

instance : IsTrans HostInfo hostIpLe := ⟨fun _ _ _ h h' => Nat.le_trans h h'⟩

/-- `scan_network` from `src/src/main.rs`: ARP (fatal on error), then ICMP and
TCP in parallel (each fatal on error via `?`), then SNMP enrichment
(non-fatal), assembly of per-host records, the synthetic local entry, and the
sort by numeric IP.  Error values pass through as at the `?` sites (the
`anyhow` context strings are not modelled).  The Rust `sort_by` is a stable
sort; `insertionSort` is the stable sort used here. -/
def scan_network (interface : InterfaceInfo) (o : MainScanOracles) :
    Except String ScanResult := do
  let (subnet, _ips) ← calculate_subnet_ips interface
  let arp_hosts ← o.arp
  let arp_count := arp_hosts.length
  let response_times ← o.icmp
  let icmp_count := response_times.length
  let port_results ← o.tcp
  let snmp_data := snmpDataOf o
  let hosts := (arp_hosts.filter (fun p => p.1 ≠ interface.ip)).map
    (build_host response_times port_results snmp_data)
  let active_hosts := List.insertionSort hostIpLe (hosts ++ [local_host interface])
  let total_hosts := active_hosts.length
  .ok { interface_name := interface.name
        local_ip := interface.ip
        local_mac := interface.mac
        subnet := subnet.toCidrString
        scan_method := "Active ARP + ICMP"
        arp_discovered := arp_count
        icmp_discovered := icmp_count
        total_hosts := total_hosts
        scan_duration_ms := o.elapsed_ms
        active_hosts := active_hosts }

/-! ### Reverse DNS (`src/src/network/dns.rs`)

`lookup_addr` is the OS resolver (an oracle: `.ok name` or a failure), and
`dns_scan` wraps each call in a wall-clock timeout — `timed_out ip = true`
models the `tokio::time::timeout` (or task-join) branch not delivering a
value for that address. -/

structure DnsOracle where
  lookup_addr : Nat → Except Unit String
  timed_out : Nat → Bool

/-- `reverse_lookup`: a resolver failure yields `none`, and a name equal to
the literal dotted-decimal text of the address is treated as no result. -/
def reverse_lookup (lookup_addr : Nat → Except Unit String) (ip : Nat) : Option String :=
  match lookup_addr ip with
  | .ok hostname => if hostname ≠ ipToString ip then some hostname else none
  | .error _ => none

/-- `dns_scan`: one bounded-concurrency task per address; only successful,
non-self lookups are inserted into the shared result map.  (The bounded
semaphore affects scheduling only; the resulting map is the set of
per-address outcomes, modelled here as the corresponding association
list.) -/
def dns_scan (o : DnsOracle) (ips : List Nat) : List (Nat × String) :=
  ips.filterMap (fun ip =>
    if o.timed_out ip then none
    else (reverse_lookup o.lookup_addr ip).map (fun hostname => (ip, hostname)))

/-! ### Monitor data model

`DeviceSnapshot`, `NetworkEvent` and `MonitoringStatus` are declared in
`monitor/events.rs`, which is not among the sources at hand; their shapes are
taken from spec §3 together with every construction/consumption site in
`monitor/watcher.rs`. -/

structure DeviceSnapshot where
  mac : String
  ip : Nat
  hostname : Option String
  device_type : String
  is_online : Bool
deriving Repr, DecidableEq

inductive NetworkEvent where
  | monitoringStarted (interval_seconds : Nat)
  | scanStarted (scan_number : Nat)
  | scanProgress (phase : String) (percent : Nat) (message : String)
  | scanCompleted (scan_number : Nat) (hosts_found : Nat) (duration_ms : Nat)
  | newDeviceDiscovered (ip : Nat) (mac : String) (hostname : Option String)
      (device_type : String)
  | deviceWentOffline (mac : String) (last_ip : Nat) (hostname : Option String)
  | deviceIpChanged (mac : String) (old_ip : Nat) (new_ip : Nat)
  | monitoringError (message : String)
  | monitoringStopped
deriving Repr, DecidableEq

structure MonitoringStatus where
  is_running : Bool
  interval_seconds : Nat
  scan_count : Nat
  last_scan_time : Option String
  devices_online : Nat
  devices_total : Nat
deriving Repr, DecidableEq

/-- Vendor lookup result (`lookup_vendor_info`, `network/vendor.rs` — consumed
by the watcher, implementation an oracle). -/
structure VendorInfo where
  vendor : Option String
  is_randomized : Bool
deriving Repr, DecidableEq

/-- Outcomes of the effectful pieces one background scan consumes
(`run_background_scan` in `monitor/watcher.rs`): interface selection, the ARP
sweep (its `Result`, the `spawn_blocking` join error folded in), the bulk ICMP
and TCP phase `Result`s, and the pure-but-external vendor/device-type lookup
tables (`network/vendor.rs`, `network/device.rs`). -/
structure MonitorScanOracles where
  find_valid_interface : Except String InterfaceInfo
  arp : Except String (List (Nat × String))
  icmp : Except String (List (Nat × Nat))
  tcp : Except String (List (Nat × List Nat))
  lookup_vendor_info : String → VendorInfo
  infer_device_type : Option String → Option String → List Nat → Bool → String

/-- `run_background_scan`: the watcher's scan body.  Returns the `ScanProgress`
events it emitted (in order) together with its `Result`.  Faithful points:
ARP failure is fatal; the ICMP result is bound to an unused `_` variable and
the TCP result is `unwrap_or_default()`ed — both non-fatal; `dns_scan` cannot
fail; every snapshot is built with `is_online: true` and the local interface
address is filtered out of both the DNS targets and the snapshot list. -/
def run_background_scan (o : MonitorScanOracles) (dns : DnsOracle) :
    List NetworkEvent × Except String (List DeviceSnapshot) :=
  let ev0 : List NetworkEvent :=
    [.scanProgress "INIT" 5 "Finding network interface..."]
  match o.find_valid_interface with
  | .error e => (ev0, .error ("Interface error: " ++ e))
  | .ok interface =>
    match calculate_subnet_ips interface with
    | .error e => (ev0, .error ("Subnet error: " ++ e))
    | .ok (_subnet, ips) =>
      let ev1 := ev0 ++ [.scanProgress "ARP" 20
        ("ARP scanning " ++ toString ips.length ++ " hosts...")]
      match o.arp with
      | .error e => (ev1, .error ("ARP scan error: " ++ e))
      | .ok arp_hosts =>
        let ev2 := ev1 ++ [.scanProgress "ICMP" 50
          ("ICMP scanning " ++ toString arp_hosts.length ++ " hosts...")]
        let _response_times := o.icmp.toOption.getD []
        let port_results := o.tcp.toOption.getD []
        let ev3 := ev2 ++ [.scanProgress "DNS" 80 "Resolving hostnames..."]
        let host_ips := (arp_hosts.filter (fun p => p.1 ≠ interface.ip)).map (·.1)
        let dns_hostnames := dns_scan dns host_ips
        let ev4 := ev3 ++ [.scanProgress "COMPLETE" 100 "Scan complete"]
        let devices := (arp_hosts.filter (fun p => p.1 ≠ interface.ip)).map
          (fun p =>
            let ip := p.1
            let mac_str := p.2
            let vendor_info := o.lookup_vendor_info mac_str
            let open_ports := (mapGet port_results ip).getD []
            let is_gateway := ip % 256 == 1 || open_ports.contains 80
            let device_type := o.infer_device_type vendor_info.vendor
              (mapGet dns_hostnames ip) open_ports is_gateway
            { mac := mac_str
              ip := ip
              hostname := mapGet dns_hostnames ip
              device_type := device_type
              is_online := true })
        (ev4, .ok devices)

/-- `detect_and_emit_changes`: the snapshot diff.  Identity is the mac text.
The three passes run in source order (new devices over the `current` list,
offline devices over the `previous` map, IP changes over the `current` list
again), so the returned event list is their concatenation.  The `current_macs`
lookup map the second pass consults only for key membership is rendered as
membership in the list of current macs. -/
def detect_and_emit_changes (previous : List (String × DeviceSnapshot))
    (current : List DeviceSnapshot) : List NetworkEvent :=
  ((current.filter (fun d => !(containsKey previous d.mac))).map
    (fun d => NetworkEvent.newDeviceDiscovered d.ip d.mac d.hostname d.device_type))
  ++ ((previous.filter (fun p => !((current.map (·.mac)).contains p.1))).map
    (fun p => NetworkEvent.deviceWentOffline p.1 p.2.ip p.2.hostname))
  ++ (current.filterMap (fun d =>
    match mapGet previous d.mac with
    | some prev_device =>
        if prev_device.ip ≠ d.ip then
          some (NetworkEvent.deviceIpChanged d.mac prev_device.ip d.ip)
        else none
    | none => none))

/-! ### The `BackgroundMonitor` state machine (`monitor/watcher.rs`)

The monitor interval constants are referenced from `crate::config` but their
defining code is not among the sources at hand, so they stay parametric. -/

/-- Modelled from the spec: `DEFAULT/MIN/MAX_MONITOR_INTERVAL` are the
config-surface monitor-cadence constants; the spec fixes no numeric values,
so the model carries them as parameters. -/
structure MonitorConsts where
  DEFAULT_MONITOR_INTERVAL : Nat
  MIN_MONITOR_INTERVAL : Nat
  MAX_MONITOR_INTERVAL : Nat

/-- Rust `u64::clamp` (whose precondition `lo ≤ hi` the caller's constants
are assumed to satisfy). -/
def clampNat (v lo hi : Nat) : Nat := if v < lo then lo else if v > hi then hi else v

/-- The fields of a `BackgroundMonitor` (each an `Arc`-shared cell in Rust),
plus `loops`, model bookkeeping counting how many scan-loop tasks have been
spawned. -/
structure MonitorState where
  is_running : Bool
  interval_seconds : Nat
  scan_count : Nat
  last_scan_time : Option String
  previous_devices : List (String × DeviceSnapshot)
  loops : Nat
deriving Repr, DecidableEq

/-- `BackgroundMonitor::new`. -/
def BackgroundMonitor.new (c : MonitorConsts) : MonitorState :=
  { is_running := false
    interval_seconds := c.DEFAULT_MONITOR_INTERVAL
    scan_count := 0
    last_scan_time := none
    previous_devices := []
    loops := 0 }

/-- `BackgroundMonitor::start`: refuse when already running; otherwise clamp
and store the interval, raise the running flag, zero `scan_count`, emit
`MonitoringStarted`, and spawn the loop task. -/
def BackgroundMonitor.start (c : MonitorConsts) (s : MonitorState)
    (interval : Option Nat) :
    Except String Unit × MonitorState × List NetworkEvent :=
  if s.is_running then
    (.error "Monitoring already running", s, [])
  else
    let interval_secs := clampNat (interval.getD c.DEFAULT_MONITOR_INTERVAL)
      c.MIN_MONITOR_INTERVAL c.MAX_MONITOR_INTERVAL
    (.ok (),
     { s with
        interval_seconds := interval_secs
        is_running := true
        scan_count := 0
        loops := s.loops + 1 },
     [.monitoringStarted interval_secs])

/-- `BackgroundMonitor::stop`: clear the flag. -/
def BackgroundMonitor.stop (s : MonitorState) : MonitorState :=
  { s with is_running := false }

/-- `BackgroundMonitor::status`. -/
def BackgroundMonitor.status (s : MonitorState) : MonitoringStatus :=
  { is_running := s.is_running
    interval_seconds := s.interval_seconds
    scan_count := s.scan_count
    last_scan_time := s.last_scan_time
    devices_online := (s.previous_devices.filter (fun p => p.2.is_online)).length
    devices_total := s.previous_devices.length }

/-- One pass of the spawned loop body (`watcher.rs` lines 83–137): when the
flag is up, bump `scan_count`, emit `ScanStarted`, run the scan, and on
success diff + replace `previous_devices`, stamp `last_scan_time` (`now` is
the wall clock) and emit `ScanCompleted`; on failure emit only
`MonitoringError`.  When the flag is down the loop body does not run.
(The measured `duration_ms` is not modelled and reported as 0.) -/
def loop_iteration (s : MonitorState) (o : MonitorScanOracles) (dns : DnsOracle)
    (now : String) : MonitorState × List NetworkEvent :=
  if s.is_running then
    let current_scan := s.scan_count + 1
    let (progress, result) := run_background_scan o dns
    match result with
    | .ok devices =>
        let changes := detect_and_emit_changes s.previous_devices devices
        ({ s with
            scan_count := current_scan
            last_scan_time := some now
            previous_devices := devices.map (fun d => (d.mac, d)) },
         [.scanStarted current_scan] ++ progress ++ changes
           ++ [.scanCompleted current_scan devices.length 0])
    | .error e =>
        ({ s with scan_count := current_scan },
         [.scanStarted current_scan] ++ progress ++ [.monitoringError e])
  else (s, [])

/-- The operations a client or the loop task can interleave on the monitor. -/
inductive MonitorOp where
  | start (interval : Option Nat)
  | stop
  | loopIter (o : MonitorScanOracles) (dns : DnsOracle) (now : String)

/-- One observable step of the monitor. -/
def monitor_step (c : MonitorConsts) (s : MonitorState) :
    MonitorOp → MonitorState × List NetworkEvent
  | .start interval =>
      let r := BackgroundMonitor.start c s interval
      (r.2.1, r.2.2)
  | .stop => (BackgroundMonitor.stop s, [])
  | .loopIter o dns now => loop_iteration s o dns now

/-- Run a sequence of operations, collecting all emitted events. -/
def monitor_run (c : MonitorConsts) (s : MonitorState) :
    List MonitorOp → MonitorState × List NetworkEvent
  | [] => (s, [])
  | op :: ops =>
      let r := monitor_step c s op
      let r' := monitor_run c r.1 ops
      (r'.1, r.2 ++ r'.2)

/-- The successive observable values of `scan_count` along a run (initial
state included). -/
def scan_count_trace (c : MonitorConsts) (s : MonitorState) :
    List MonitorOp → List Nat
  | [] => [s.scan_count]
  | op :: ops => s.scan_count :: scan_count_trace c (monitor_step c s op).1 ops

/-! ## Supporting lemmas -/

/-- Filtering the two block endpoints out of a full ascending block of length
`m ≥ 2` leaves exactly the interior, still ascending. -/
lemma filter_block_interior (n m : Nat) (h : 2 ≤ m) :
    ((List.range m).map (fun i => n + i)).filter
        (fun a => !(a == n || a == n + m - 1)) =
      (List.range (m - 2)).map (fun i => n + 1 + i) := by
  obtain ⟨k, rfl⟩ : ∃ k, m = k + 2 := ⟨m - 2, by omega⟩
  have hmap : ∀ (s len : Nat),
      (List.range len).map (fun i => s + i) = List.range' s len := by
    intro s len
    exact (List.range'_eq_map_range s len).symm
  rw [hmap, hmap]
  have h1 : List.range' n (k + 2) = n :: List.range' (n + 1) (k + 1) :=
    List.range'_succ n (k + 1) 1
  have h2 : List.range' (n + 1) (k + 1) = List.range' (n + 1) k ++ [n + 1 + 1 * k] :=
    List.range'_concat (n + 1) k
  rw [h1, h2]
  rw [List.filter_cons, List.filter_append]
  have hn : ((!(n == n || n == n + (k + 2) - 1)) : Bool) = false := by simp
  rw [hn]
  have hlast :
      List.filter (fun a => !(a == n || a == n + (k + 2) - 1)) [n + 1 + 1 * k] = [] := by
    simp only [List.filter_cons, List.filter_nil]
    have he : (n + 1 + 1 * k == n + (k + 2) - 1) = true := by
      apply beq_iff_eq.mpr
      omega
    rw [he]
    simp
  rw [hlast]
  have hmid :
      List.filter (fun a => !(a == n || a == n + (k + 2) - 1)) (List.range' (n + 1) k)
        = List.range' (n + 1) k := by
    apply List.filter_eq_self.mpr
    intro a ha
    rw [List.mem_range'] at ha
    obtain ⟨i, hi, rfl⟩ := ha
    have e1 : (n + 1 + 1 * i == n) = false := by
      apply beq_eq_false_iff_ne.mpr
      omega
    have e2 : (n + 1 + 1 * i == n + (k + 2) - 1) = false := by
      apply beq_eq_false_iff_ne.mpr
      omega
    rw [e1, e2]
    rfl
  rw [hmid]
  simp

/-- What claim C6 asserts of one interface: the computed target list is
exactly the subnet's interior (every block address except the network and
directed-broadcast addresses), ascending; 254 entries for a `/24`; empty for
`/31` and `/32`. -/
def SubnetHostsSpec (interface : InterfaceInfo) : Prop :=
  ∃ subnet ips, calculate_subnet_ips interface = .ok (subnet, ips)
    ∧ ips.Pairwise (· < ·)
    ∧ (∀ a, a ∈ ips ↔ (subnet.network ≤ a ∧ a ≤ subnet.broadcast
        ∧ a ≠ subnet.network ∧ a ≠ subnet.broadcast))
    ∧ (interface.prefix_len = 24 → ips.length = 254)
    ∧ ((interface.prefix_len = 31 ∨ interface.prefix_len = 32) → ips = [])

/-- C6: For every interface with IPv4 address ip and prefix_len p (valid per
the data model, `1 ≤ p ≤ 32`), `calculate_subnet_ips` returns the list of all
host addresses of the subnet excluding the network address and the directed
broadcast, in ascending numeric order; for p = 24 the list has exactly 254
entries, and for p = 31 or p = 32 the list is empty. -/
theorem calculate_subnet_ips_hosts (interface : InterfaceInfo)
    (h1 : 1 ≤ interface.prefix_len) (h2 : interface.prefix_len ≤ 32) :
    SubnetHostsSpec interface := by
  have hpos : 0 < 2 ^ (32 - interface.prefix_len) := Nat.pos_pow_of_pos _ (by omega)
  have hsub : calculate_subnet_ips interface =
      .ok (⟨interface.ip / 2 ^ (32 - interface.prefix_len) * 2 ^ (32 - interface.prefix_len),
            interface.prefix_len⟩,
        (Ipv4Network.iter ⟨interface.ip / 2 ^ (32 - interface.prefix_len) *
              2 ^ (32 - interface.prefix_len), interface.prefix_len⟩).filter
          (fun ip => !(is_special_address ip
            ⟨interface.ip / 2 ^ (32 - interface.prefix_len) *
              2 ^ (32 - interface.prefix_len), interface.prefix_len⟩))) := by
    simp only [calculate_subnet_ips, Ipv4Network.new, h2, if_pos, bind, Except.bind,
      Ipv4Network.network, Ipv4Network.size]
  generalize hnet : interface.ip / 2 ^ (32 - interface.prefix_len) *
      2 ^ (32 - interface.prefix_len) = net at hsub
  have hsn : Ipv4Network.network ⟨net, interface.prefix_len⟩ = net := by
    simp only [Ipv4Network.network, Ipv4Network.size]
    rw [← hnet, Nat.mul_div_cancel _ hpos]
  have hsb : Ipv4Network.broadcast ⟨net, interface.prefix_len⟩ =
      net + 2 ^ (32 - interface.prefix_len) - 1 := by
    simp only [Ipv4Network.broadcast, Ipv4Network.size, hsn]
  have hfilter : (Ipv4Network.iter ⟨net, interface.prefix_len⟩).filter
        (fun ip => !(is_special_address ip ⟨net, interface.prefix_len⟩)) =
      ((List.range (2 ^ (32 - interface.prefix_len))).map (fun i => net + i)).filter
        (fun a => !(a == net || a == net + 2 ^ (32 - interface.prefix_len) - 1)) := by
    simp only [Ipv4Network.iter, Ipv4Network.size, is_special_address, hsn, hsb]
  rcases Nat.lt_or_ge interface.prefix_len 32 with hlt | hge
  · -- prefixes up to /31: the block has at least two addresses
    have h2le : 2 ≤ 2 ^ (32 - interface.prefix_len) := by
      calc 2 = 2 ^ 1 := rfl
      _ ≤ 2 ^ (32 - interface.prefix_len) := Nat.pow_le_pow_right (by omega) (by omega)
    have hclosed : (Ipv4Network.iter ⟨net, interface.prefix_len⟩).filter
          (fun ip => !(is_special_address ip ⟨net, interface.prefix_len⟩)) =
        (List.range (2 ^ (32 - interface.prefix_len) - 2)).map (fun i => net + 1 + i) := by
      rw [hfilter, filter_block_interior net _ h2le]
    refine ⟨⟨net, interface.prefix_len⟩,
      (List.range (2 ^ (32 - interface.prefix_len) - 2)).map (fun i => net + 1 + i),
      by rw [hsub, hclosed], ?_, ?_, ?_, ?_⟩
    · refine List.Pairwise.map _ ?_ (List.pairwise_lt_range _)
      intro i j hij
      omega
    · intro a
      rw [hsn, hsb]
      simp only [List.mem_map, List.mem_range]
      constructor
      · rintro ⟨i, hi, rfl⟩
        refine ⟨by omega, by omega, by omega, by omega⟩
      · rintro ⟨hle, hle', hne, hne'⟩
        exact ⟨a - (net + 1), by omega, by omega⟩
    · intro h24
      rw [List.length_map, List.length_range, h24]
      norm_num
    · rintro (h31 | h32)
      · rw [h31]
        simp
      · omega
  · -- /32: the block is a single address, which is its own network and broadcast
    have hp32 : interface.prefix_len = 32 := by omega
    have hsz1 : (2 : Nat) ^ (32 - interface.prefix_len) = 1 := by
      rw [hp32]
      norm_num
    have hempty : (Ipv4Network.iter ⟨net, interface.prefix_len⟩).filter
          (fun ip => !(is_special_address ip ⟨net, interface.prefix_len⟩)) = [] := by
      rw [hfilter, hsz1]
      have hr1 : List.range 1 = [0] := rfl
      rw [hr1]
      simp
    refine ⟨⟨net, interface.prefix_len⟩, [], by rw [hsub, hempty], by simp, ?_,
      by intro h24; omega, by intro _; rfl⟩
    intro a
    rw [hsn, hsb, hsz1]
    simp only [List.not_mem_nil, false_iff]
    rintro ⟨hle, hle', hne, hne'⟩
    omega

/-- Witness for C6: the spec holds of a concrete `/24` interface. -/
theorem calculate_subnet_ips_hosts_witness :
    SubnetHostsSpec ⟨"eth0", 3232235778, "00:11:22:33:44:55", 24⟩ :=
  calculate_subnet_ips_hosts ⟨"eth0", 3232235778, "00:11:22:33:44:55", 24⟩
    (by decide) (by decide)

lemma build_host_ip (rt : List (Nat × Nat)) (pr : List (Nat × List Nat))
    (sd : List (Nat × SnmpData)) (p : Nat × String) :
    (build_host rt pr sd p).ip = p.1 := rfl

lemma build_host_response_time (rt : List (Nat × Nat)) (pr : List (Nat × List Nat))
    (sd : List (Nat × SnmpData)) (p : Nat × String) :
    (build_host rt pr sd p).response_time_ms = mapGet rt p.1 := rfl

lemma build_host_open_ports (rt : List (Nat × Nat)) (pr : List (Nat × List Nat))
    (sd : List (Nat × SnmpData)) (p : Nat × String) :
    (build_host rt pr sd p).open_ports = (mapGet pr p.1).getD [] := rfl

/-- A non-local host's tag is never the synthetic `LOCAL` tag: the four
`match` arms, with or without the `+SNMP` suffix, are eight strings distinct
from it. -/
lemma build_host_method_ne_local (rt : List (Nat × Nat)) (pr : List (Nat × List Nat))
    (sd : List (Nat × SnmpData)) (p : Nat × String) :
    (build_host rt pr sd p).discovery_method ≠ "LOCAL" := by
  unfold build_host
  cases hs : (mapGet sd p.1).isSome <;>
    cases hr : (mapGet rt p.1).isSome <;>
      cases ho : ((mapGet pr p.1).getD []).isEmpty <;>
        simp [hs, hr, ho]

/-- Inversion of a successful `scan_network` run: every phase succeeded and
the result's fields are the assembled values. -/
lemma scan_network_ok_inv (interface : InterfaceInfo) (o : MainScanOracles)
    (S : ScanResult) (hS : scan_network interface o = .ok S) :
    ∃ subnet ips arp_hosts response_times port_results,
      calculate_subnet_ips interface = .ok (subnet, ips)
      ∧ o.arp = .ok arp_hosts
      ∧ o.icmp = .ok response_times
      ∧ o.tcp = .ok port_results
      ∧ S.local_ip = interface.ip
      ∧ S.active_hosts = List.insertionSort hostIpLe
          (((arp_hosts.filter (fun p => p.1 ≠ interface.ip)).map
              (build_host response_times port_results (snmpDataOf o)))
            ++ [local_host interface]) := by
  cases h1 : calculate_subnet_ips interface with
  | error e => simp [scan_network, h1, bind, Except.bind] at hS
  | ok v =>
    obtain ⟨subnet, ips⟩ := v
    cases h2 : o.arp with
    | error e => simp [scan_network, h1, h2, bind, Except.bind] at hS
    | ok arp_hosts =>
      cases h3 : o.icmp with
      | error e => simp [scan_network, h1, h2, h3, bind, Except.bind] at hS
      | ok response_times =>
        cases h4 : o.tcp with
        | error e => simp [scan_network, h1, h2, h3, h4, bind, Except.bind] at hS
        | ok port_results =>
          refine ⟨subnet, ips, arp_hosts, response_times, port_results,
            rfl, rfl, rfl, rfl, ?_, ?_⟩ <;>
          · simp only [scan_network, h1, h2, h3, h4, bind, Except.bind, Except.ok.injEq] at hS
            rw [← hS]

/-- What claim C4 asserts of a scan result: `active_hosts` ascending by
numeric IP (`hostIpLe`), exactly one `LOCAL` entry, and that entry is the
local machine with zero response time. -/
def ScanResultLocalSpec (S : ScanResult) : Prop :=
  List.Sorted hostIpLe S.active_hosts
  ∧ (S.active_hosts.filter (fun h => h.discovery_method == "LOCAL")).length = 1
  ∧ ∀ h ∈ S.active_hosts, h.discovery_method = "LOCAL" →
      (h.ip = S.local_ip ∧ h.response_time_ms = some 0)

/-- C4: For every ScanResult S produced by a scan, S.active_hosts is sorted
ascending by numeric IPv4 order and contains exactly one entry whose
discovery_method is "LOCAL"; that entry's ip equals S.local_ip and its
response_time_ms is 0. -/
theorem scan_network_local_entry (interface : InterfaceInfo) (o : MainScanOracles)
    (S : ScanResult) (hS : scan_network interface o = .ok S) :
    ScanResultLocalSpec S := by
  obtain ⟨subnet, ips, arp_hosts, response_times, port_results,
    h1, h2, h3, h4, hlocal, hactive⟩ := scan_network_ok_inv interface o S hS
  have hperm : S.active_hosts.Perm
      (((arp_hosts.filter (fun p => p.1 ≠ interface.ip)).map
          (build_host response_times port_results (snmpDataOf o)))
        ++ [local_host interface]) := by
    rw [hactive]
    exact List.perm_insertionSort hostIpLe _
  refine ⟨?_, ?_, ?_⟩
  · rw [hactive]
    exact List.sorted_insertionSort hostIpLe _
  · have hcount := (hperm.filter (fun h => h.discovery_method == "LOCAL")).length_eq
    rw [hcount, List.filter_append]
    have hnil : ((arp_hosts.filter (fun p => p.1 ≠ interface.ip)).map
        (build_host response_times port_results (snmpDataOf o))).filter
          (fun h => h.discovery_method == "LOCAL") = [] := by
      apply List.filter_eq_nil_iff.mpr
      intro h hh
      obtain ⟨p, _, rfl⟩ := List.mem_map.mp hh
      simpa using build_host_method_ne_local response_times port_results (snmpDataOf o) p
    rw [hnil]
    rfl
  · intro h hh hm
    have hh' := hperm.mem_iff.mp hh
    rcases List.mem_append.mp hh' with hmem | hmem
    · obtain ⟨p, _, rfl⟩ := List.mem_map.mp hmem
      exact absurd hm (build_host_method_ne_local response_times port_results (snmpDataOf o) p)
    · have : h = local_host interface := by simpa using hmem
      subst this
      exact ⟨hlocal.symm, rfl⟩

/-- A concrete interface on a `/30` block (addresses 4–7, hosts 5 and 6). -/
def sampleIface : InterfaceInfo := ⟨"eth0", 6, "00:11:22:33:44:55", 30⟩

/-- Concrete phase outcomes: one ARP neighbour at address 5 that answered
ICMP in 3 ms and has port 80 open. -/
def sampleMainOracles : MainScanOracles :=
  { arp := .ok [(5, "AA:BB:CC:DD:EE:01")]
    icmp := .ok [(5, 3)]
    tcp := .ok [(5, [80])]
    snmp_enrich := .ok []
    elapsed_ms := 42 }

/-- The scan result of the concrete run above. -/
def sampleScanResult : ScanResult :=
  (scan_network sampleIface sampleMainOracles).toOption.getD
    ⟨"", 0, "", "", "", 0, 0, 0, 0, []⟩

/-- Witness for C4 at the concrete run. -/
theorem scan_network_local_entry_witness : ScanResultLocalSpec sampleScanResult :=
  scan_network_local_entry sampleIface sampleMainOracles sampleScanResult (by rfl)

/-- What claim C5 asserts of a scan run: every non-local host's tag is the
concatenation of its signals, and an ARP-only host (no ICMP reply, no open
port) still appears, tagged exactly `ARP` with no response time. -/
def DiscoveryMethodSpec (interface : InterfaceInfo) (o : MainScanOracles)
    (S : ScanResult) : Prop :=
  (∀ h ∈ S.active_hosts, h.discovery_method ≠ "LOCAL" →
      h.discovery_method = "ARP"
        ++ (if h.response_time_ms.isSome then "+ICMP" else "")
        ++ (if h.open_ports.isEmpty then "" else "+TCP")
        ++ (if (mapGet (snmpDataOf o) h.ip).isSome then "+SNMP" else ""))
  ∧ (∀ arp_hosts, o.arp = .ok arp_hosts →
      ∀ p ∈ arp_hosts, p.1 ≠ interface.ip →
        (∀ rt, o.icmp = .ok rt → mapGet rt p.1 = none) →
        (∀ pr, o.tcp = .ok pr → (mapGet pr p.1).getD [] = []) →
        ∃ h ∈ S.active_hosts, h.ip = p.1 ∧ h.mac = p.2
          ∧ h.discovery_method = "ARP" ∧ h.response_time_ms = none)

/-- C5: For every non-local host in a ScanResult, discovery_method is the
concatenation "ARP", plus "+ICMP" iff an ICMP response time is present, plus
"+TCP" iff the host has at least one open port, plus "+SNMP" iff SNMP
enrichment returned data for it; a host discovered by ARP with no ICMP reply
and no open ports is still included, with discovery_method exactly "ARP" and
no response_time_ms. -/
theorem scan_network_discovery_method (interface : InterfaceInfo)
    (o : MainScanOracles) (S : ScanResult) (hS : scan_network interface o = .ok S) :
    DiscoveryMethodSpec interface o S := by
  obtain ⟨subnet, ips, arp_hosts, response_times, port_results,
    h1, h2, h3, h4, hlocal, hactive⟩ := scan_network_ok_inv interface o S hS
  have hperm : S.active_hosts.Perm
      (((arp_hosts.filter (fun p => p.1 ≠ interface.ip)).map
          (build_host response_times port_results (snmpDataOf o)))
        ++ [local_host interface]) := by
    rw [hactive]
    exact List.perm_insertionSort hostIpLe _
  constructor
  · intro h hh hm
    have hh' := hperm.mem_iff.mp hh
    rcases List.mem_append.mp hh' with hmem | hmem
    · obtain ⟨p, _, rfl⟩ := List.mem_map.mp hmem
      show (build_host response_times port_results (snmpDataOf o) p).discovery_method = _
      rw [build_host_ip, build_host_response_time, build_host_open_ports]
      unfold build_host
      cases hs : (mapGet (snmpDataOf o) p.1).isSome <;>
        cases hr : (mapGet response_times p.1).isSome <;>
          cases hp : ((mapGet port_results p.1).getD []).isEmpty <;>
            simp [hs, hr, hp]
    · have : h = local_host interface := by simpa using hmem
      subst this
      exact absurd rfl hm
  · intro arp' harp' p hp hnl hicmp htcp
    have harp : arp' = arp_hosts := by
      have := harp'.symm.trans h2
      exact Except.ok.inj this
    subst harp
    have hrt : mapGet response_times p.1 = none := hicmp response_times h3
    have hpr : (mapGet port_results p.1).getD [] = [] := htcp port_results h4
    refine ⟨build_host response_times port_results (snmpDataOf o) p, ?_, ?_, ?_, ?_, ?_⟩
    · apply hperm.mem_iff.mpr
      apply List.mem_append.mpr
      left
      exact List.mem_map.mpr ⟨p, List.mem_filter.mpr ⟨hp, by simpa using hnl⟩, rfl⟩
    · exact build_host_ip _ _ _ _
    · rfl
    · unfold build_host
      simp only [hrt, hpr]
      have hsnone : mapGet (snmpDataOf o) p.1 = none := rfl
      simp [hsnone]
    · rw [build_host_response_time, hrt]

/-- Witness for C5 at the concrete run. -/
theorem scan_network_discovery_method_witness :
    DiscoveryMethodSpec sampleIface sampleMainOracles sampleScanResult :=
  scan_network_discovery_method sampleIface sampleMainOracles sampleScanResult (by rfl)

/-- Phase outcomes where ARP succeeded but the bulk ICMP phase failed. -/
def icmpFailureOracles : MainScanOracles :=
  { arp := .ok [(5, "AA:BB:CC:DD:EE:01")]
    icmp := .error "ICMP scan failed"
    tcp := .ok []
    snmp_enrich := .ok []
    elapsed_ms := 0 }

/-- Counterexample to C2 as stated: in the `main.rs` pipeline an ICMP-phase
error is propagated with `?` after a successful ARP phase, so the scan
produces no result at all instead of treating the phase as empty. -/
theorem scan_network_icmp_error_fatal :
    scan_network sampleIface icmpFailureOracles = .error "ICMP scan failed" := rfl

/-- C2 (amended): in the background monitor's scan, errors of the bulk ICMP
and TCP phases are non-fatal — the scan result is the same as if those
phases had returned empty results — and the DNS phase cannot fail by type.
(In the CLI and UI scan paths, `main.rs` and `commands.rs`, such an error is
fatal to the scan.) -/
theorem run_background_scan_phase_errors_nonfatal (o : MonitorScanOracles)
    (dns : DnsOracle) (interface : InterfaceInfo)
    (hI : o.find_valid_interface = .ok interface)
    (subnet : Ipv4Network) (ips : List Nat)
    (hsub : calculate_subnet_ips interface = .ok (subnet, ips))
    (arp_hosts : List (Nat × String)) (hA : o.arp = .ok arp_hosts)
    (e1 e2 : String) :
    (run_background_scan { o with icmp := .error e1, tcp := .error e2 } dns).2
      = (run_background_scan { o with icmp := .ok [], tcp := .ok [] } dns).2
    ∧ ((run_background_scan { o with icmp := .error e1, tcp := .error e2 } dns).2).isOk
        = true := by
  constructor
  · simp [run_background_scan, hI, hsub, hA, Except.toOption]
  · simp [run_background_scan, hI, hsub, hA, Except.toOption, Except.isOk, Except.toBool]

/-- A resolver oracle that always fails (no DNS data). -/
def sampleDnsOracle : DnsOracle := ⟨fun _ => .error (), fun _ => false⟩

/-- Monitor-scan outcomes for the concrete `/30` interface: one ARP
neighbour, ICMP and TCP clean, external lookup tables trivial. -/
def sampleMonitorOracles : MonitorScanOracles :=
  { find_valid_interface := .ok sampleIface
    arp := .ok [(5, "AA:BB:CC:DD:EE:01")]
    icmp := .ok [(5, 3)]
    tcp := .ok [(5, [80])]
    lookup_vendor_info := fun _ => ⟨none, false⟩
    infer_device_type := fun _ _ _ _ => "UNKNOWN" }

/-- Witness for C2 (amended) at the concrete monitor scan. -/
theorem run_background_scan_phase_errors_nonfatal_witness :
    (run_background_scan
        { sampleMonitorOracles with icmp := .error "i", tcp := .error "t" }
        sampleDnsOracle).2
      = (run_background_scan
          { sampleMonitorOracles with icmp := .ok [], tcp := .ok [] }
          sampleDnsOracle).2
    ∧ ((run_background_scan
          { sampleMonitorOracles with icmp := .error "i", tcp := .error "t" }
          sampleDnsOracle).2).isOk = true :=
  run_background_scan_phase_errors_nonfatal sampleMonitorOracles sampleDnsOracle
    sampleIface (by rfl) ⟨4, 30⟩ [5, 6] (by rfl) [(5, "AA:BB:CC:DD:EE:01")] (by rfl)
    "i" "t"

lemma mapGet_nil {κ α : Type} [BEq κ] (k : κ) : mapGet ([] : List (κ × α)) k = none := rfl

lemma mapGet_cons {κ α : Type} [BEq κ] (a k : κ) (v : α) (m : List (κ × α)) :
    mapGet ((a, v) :: m) k = if a == k then some v else mapGet m k := by
  unfold mapGet
  rw [List.find?_cons]
  by_cases h : (a == k : Bool)
  · simp [h]
  · simp [h]

lemma dns_scan_cons_timeout (o : DnsOracle) (a : Nat) (as : List Nat)
    (ht : o.timed_out a = true) : dns_scan o (a :: as) = dns_scan o as := by
  simp [dns_scan, List.filterMap_cons, ht]

lemma dns_scan_cons_none (o : DnsOracle) (a : Nat) (as : List Nat)
    (ht : o.timed_out a = false) (hrl : reverse_lookup o.lookup_addr a = none) :
    dns_scan o (a :: as) = dns_scan o as := by
  simp [dns_scan, List.filterMap_cons, ht, hrl]

lemma dns_scan_cons_some (o : DnsOracle) (a : Nat) (as : List Nat) (hn : String)
    (ht : o.timed_out a = false) (hrl : reverse_lookup o.lookup_addr a = some hn) :
    dns_scan o (a :: as) = (a, hn) :: dns_scan o as := by
  simp [dns_scan, List.filterMap_cons, ht, hrl]

/-- Addresses not in the query list never acquire an entry. -/
lemma dns_scan_get_not_mem (o : DnsOracle) (ips : List Nat) (ip : Nat)
    (h : ip ∉ ips) : mapGet (dns_scan o ips) ip = none := by
  induction ips with
  | nil => rfl
  | cons a as ih =>
    have hne : (a == ip : Bool) = false := by
      simp only [beq_eq_false_iff_ne, ne_eq]
      intro e
      exact h (e ▸ List.mem_cons_self a as)
    have hmem : ip ∉ as := fun hm => h (List.mem_cons_of_mem a hm)
    by_cases ht : o.timed_out a
    · rw [dns_scan_cons_timeout o a as ht]
      exact ih hmem
    · cases hrl : reverse_lookup o.lookup_addr a with
      | none =>
        rw [dns_scan_cons_none o a as (by simpa using ht) hrl]
        exact ih hmem
      | some hn =>
        rw [dns_scan_cons_some o a as hn (by simpa using ht) hrl, mapGet_cons, hne]
        simp only [Bool.false_eq_true, if_false]
        exact ih hmem

/-- The entry an address in the query list gets is exactly its per-query
outcome: nothing on timeout, else the `reverse_lookup` result. -/
lemma dns_scan_get_mem (o : DnsOracle) (ips : List Nat) (ip : Nat)
    (h : ip ∈ ips) :
    mapGet (dns_scan o ips) ip =
      (if o.timed_out ip then none else reverse_lookup o.lookup_addr ip) := by
  induction ips with
  | nil => cases h
  | cons a as ih =>
    by_cases hip : ip = a
    · subst hip
      by_cases hmem : ip ∈ as
      · by_cases ht : o.timed_out ip
        · rw [dns_scan_cons_timeout o ip as ht, ih hmem]
        · have ht' : o.timed_out ip = false := by simpa using ht
          cases hrl : reverse_lookup o.lookup_addr ip with
          | none => rw [dns_scan_cons_none o ip as ht' hrl, ih hmem, hrl]
          | some hn =>
            rw [dns_scan_cons_some o ip as hn ht' hrl, mapGet_cons]
            simp [ht', hrl]
      · by_cases ht : o.timed_out ip
        · rw [dns_scan_cons_timeout o ip as ht, dns_scan_get_not_mem o as ip hmem]
          simp [ht]
        · have ht' : o.timed_out ip = false := by simpa using ht
          cases hrl : reverse_lookup o.lookup_addr ip with
          | none =>
            rw [dns_scan_cons_none o ip as ht' hrl, dns_scan_get_not_mem o as ip hmem]
            simp [ht', hrl]
          | some hn =>
            rw [dns_scan_cons_some o ip as hn ht' hrl, mapGet_cons]
            simp [ht', hrl]
    · have hmem : ip ∈ as := by
        cases List.mem_cons.mp h with
        | inl e => exact absurd e hip
        | inr hm => exact hm
      have hne : (a == ip : Bool) = false := by
        simp only [beq_eq_false_iff_ne, ne_eq]
        exact fun e => hip e.symm
      by_cases ht : o.timed_out a
      · rw [dns_scan_cons_timeout o a as ht]
        exact ih hmem
      · cases hrl : reverse_lookup o.lookup_addr a with
        | none =>
          rw [dns_scan_cons_none o a as (by simpa using ht) hrl]
          exact ih hmem
        | some hn =>
          rw [dns_scan_cons_some o a as hn (by simpa using ht) hrl, mapGet_cons, hne]
          simp only [Bool.false_eq_true, if_false]
          exact ih hmem

/-- What claim C8 asserts for an address in the query list: a self-referential
name, a resolver failure, or a timeout each leave the result map without an
entry for that address, and an entry exists exactly when the query completed
with a genuine name.  (`dns_scan` itself is total — it returns a map, never
an error.) -/
def DnsScanSpec (o : DnsOracle) (ips : List Nat) (ip : Nat) : Prop :=
  (o.lookup_addr ip = .ok (ipToString ip) → mapGet (dns_scan o ips) ip = none)
  ∧ (o.timed_out ip = true → mapGet (dns_scan o ips) ip = none)
  ∧ (o.lookup_addr ip = .error () → mapGet (dns_scan o ips) ip = none)
  ∧ (∀ hostname, mapGet (dns_scan o ips) ip = some hostname ↔
      (o.timed_out ip = false ∧ o.lookup_addr ip = .ok hostname
        ∧ hostname ≠ ipToString ip))

/-- C8: For every IP address, a reverse-DNS query whose returned name equals
the literal dotted-decimal text of the IP yields no hostname entry in the
dns_scan result, and every per-query failure or timeout is silently omitted
from the result map (never an error of dns_scan). -/
theorem dns_scan_omission (o : DnsOracle) (ips : List Nat) (ip : Nat)
    (h : ip ∈ ips) : DnsScanSpec o ips ip := by
  have hg := dns_scan_get_mem o ips ip h
  refine ⟨?_, ?_, ?_, ?_⟩
  · intro hself
    rw [hg]
    by_cases ht : o.timed_out ip
    · simp [ht]
    · simp [ht, reverse_lookup, hself]
  · intro ht
    rw [hg, ht]
    rfl
  · intro herr
    rw [hg]
    by_cases ht : o.timed_out ip
    · simp [ht]
    · simp [ht, reverse_lookup, herr]
  · intro hostname
    rw [hg]
    constructor
    · intro he
      by_cases ht : o.timed_out ip
      · rw [ht] at he
        simp at he
      · have ht' : o.timed_out ip = false := by simpa using ht
        simp only [ht', Bool.false_eq_true, if_false] at he
        unfold reverse_lookup at he
        cases hla : o.lookup_addr ip with
        | error u => rw [hla] at he; simp at he
        | ok name =>
          rw [hla] at he
          replace he : (if name ≠ ipToString ip then some name else none) = some hostname :=
            he
          by_cases hne : name ≠ ipToString ip
          · rw [if_pos hne] at he
            cases he
            exact ⟨ht', rfl, hne⟩
          · rw [if_neg hne] at he
            simp at he
    · rintro ⟨ht, hla, hne⟩
      simp only [ht, Bool.false_eq_true, if_false]
      unfold reverse_lookup
      rw [hla]
      show (if hostname ≠ ipToString ip then some hostname else none) = some hostname
      rw [if_pos hne]

/-- Witness for C8 at a concrete query list and oracle: address 5 resolves to
its own literal text, address 6 to a genuine name. -/
theorem dns_scan_omission_witness :
    DnsScanSpec ⟨fun ip => .ok (if ip == 6 then "printer.lan" else ipToString ip),
      fun _ => false⟩ [5, 6] 5 :=
  dns_scan_omission
    ⟨fun ip => .ok (if ip == 6 then "printer.lan" else ipToString ip), fun _ => false⟩
    [5, 6] 5 (by decide)

/-- Number of `NewDeviceDiscovered` events for a given mac. -/
def countNewFor (m : String) (evs : List NetworkEvent) : Nat :=
  (evs.filter (fun e => match e with
    | .newDeviceDiscovered _ mac _ _ => mac == m
    | _ => false)).length

/-- Number of `DeviceWentOffline` events for a given mac. -/
def countOfflineFor (m : String) (evs : List NetworkEvent) : Nat :=
  (evs.filter (fun e => match e with
    | .deviceWentOffline mac _ _ => mac == m
    | _ => false)).length

/-- Number of `DeviceIpChanged` events for a given mac. -/
def countIpChangedFor (m : String) (evs : List NetworkEvent) : Nat :=
  (evs.filter (fun e => match e with
    | .deviceIpChanged mac _ _ => mac == m
    | _ => false)).length

lemma containsKey_iff_mem_keys {α : Type} (l : List (String × α)) (k : String) :
    containsKey l k = true ↔ k ∈ l.map (·.1) := by
  unfold containsKey mapGet
  cases hf : l.find? (fun p => p.1 == k) with
  | none =>
    constructor
    · intro h
      simp at h
    · intro hk
      obtain ⟨p, hp, he⟩ := List.mem_map.mp hk
      have hnp := List.find?_eq_none.mp hf p hp
      simp [he] at hnp
  | some p =>
    constructor
    · intro _
      have hp := List.find?_some hf
      have hmem := List.mem_of_find?_eq_some hf
      exact List.mem_map.mpr ⟨p, hmem, by simpa using hp⟩
    · intro _
      simp

lemma contains_iff_mem (l : List String) (k : String) :
    l.contains k = true ↔ k ∈ l := by
  simp [List.contains]

/-- Over a list with pairwise-distinct keys, a key-selective filter keeps at
most the single matching element, so its length is governed by `any`. -/
lemma length_filter_key_nodup {α : Type} (key : α → String) (r : α → Bool)
    (l : List α) (h : (l.map key).Nodup) (m : String) :
    (l.filter (fun x => (key x == m) && r x)).length
      = if l.any (fun x => (key x == m) && r x) then 1 else 0 := by
  induction l with
  | nil => rfl
  | cons a as ih =>
    rw [List.map_cons, List.nodup_cons] at h
    obtain ⟨hka, hnd⟩ := h
    rw [List.filter_cons, List.any_cons]
    by_cases hpa : ((key a == m) && r a : Bool)
    · have hkam : key a = m := by
        rw [Bool.and_eq_true] at hpa
        exact eq_of_beq hpa.1
      have htail : as.filter (fun x => (key x == m) && r x) = [] := by
        apply List.filter_eq_nil_iff.mpr
        intro x hx
        have hkx : (key x == m : Bool) = false := by
          apply beq_eq_false_iff_ne.mpr
          intro he
          apply hka
          rw [hkam, ← he]
          exact List.mem_map.mpr ⟨x, hx, rfl⟩
        simp [hkx]
      rw [if_pos hpa, htail]
      simp [hpa]
    · have hpa' : ((key a == m) && r a : Bool) = false := by
        cases hv : ((key a == m) && r a : Bool)
        · rfl
        · exact absurd hv hpa
      rw [if_neg hpa, hpa']
      simp only [Bool.false_or]
      exact ih hnd

/-- Filtering the output of a `filterMap` counts the inputs whose image
passes the filter. -/
lemma length_filter_filterMap {α β : Type} (f : α → Option β) (p : β → Bool)
    (l : List α) :
    ((l.filterMap f).filter p).length
      = (l.filter (fun a => ((f a).map p).getD false)).length := by
  induction l with
  | nil => rfl
  | cons a as ih =>
    cases hf : f a with
    | none => simp [List.filterMap_cons, List.filter_cons, hf, ih]
    | some b =>
      cases hp : p b <;>
        simp [List.filterMap_cons, List.filter_cons, hf, hp, ih]

/-- Some current snapshot carries this mac, and the previous map knows the
mac under a different ip. -/
def ipChangedCond (previous : List (String × DeviceSnapshot))
    (current : List DeviceSnapshot) (m : String) : Bool :=
  current.any (fun d => (d.mac == m) &&
    (((mapGet previous d.mac).map (fun pd => pd.ip != d.ip)).getD false))

lemma countNewFor_detect (previous : List (String × DeviceSnapshot))
    (current : List DeviceSnapshot) (m : String)
    (hcur : (current.map (·.mac)).Nodup) :
    countNewFor m (detect_and_emit_changes previous current)
      = if m ∈ current.map (·.mac) ∧ m ∉ previous.map (·.1) then 1 else 0 := by
  unfold countNewFor detect_and_emit_changes
  rw [List.filter_append, List.filter_append, List.length_append, List.length_append]
  have hB : (((previous.filter (fun p => !((current.map (·.mac)).contains p.1))).map
      (fun p => NetworkEvent.deviceWentOffline p.1 p.2.ip p.2.hostname)).filter
        (fun e => match e with
          | .newDeviceDiscovered _ mac _ _ => mac == m
          | _ => false)) = [] := by
    apply List.filter_eq_nil_iff.mpr
    intro e he
    obtain ⟨p, _, rfl⟩ := List.mem_map.mp he
    simp
  have hC : ((current.filterMap (fun d =>
      match mapGet previous d.mac with
      | some prev_device =>
          if prev_device.ip ≠ d.ip then
            some (NetworkEvent.deviceIpChanged d.mac prev_device.ip d.ip)
          else none
      | none => none)).filter
        (fun e => match e with
          | .newDeviceDiscovered _ mac _ _ => mac == m
          | _ => false)) = [] := by
    apply List.filter_eq_nil_iff.mpr
    intro e he
    obtain ⟨d, _, hd⟩ := List.mem_filterMap.mp he
    cases hm : mapGet previous d.mac with
    | none => rw [hm] at hd; cases hd
    | some pd =>
      rw [hm] at hd
      by_cases hip : pd.ip ≠ d.ip
      · simp only [hip, if_true] at hd
        rw [if_pos hip] at hd
        cases hd
        simp
      · simp [hip] at hd
  rw [hB, hC]
  simp only [List.length_nil, Nat.add_zero]
  rw [List.filter_map, List.length_map, List.filter_filter]
  have hpt : (current.filter (fun d =>
        ((fun e => match e with
          | NetworkEvent.newDeviceDiscovered _ mac _ _ => mac == m
          | _ => false) ∘ (fun d => NetworkEvent.newDeviceDiscovered d.ip d.mac d.hostname d.device_type)) d
        && !(containsKey previous d.mac)))
      = current.filter (fun d => (d.mac == m) && !(containsKey previous d.mac)) := rfl
  rw [hpt, length_filter_key_nodup (·.mac) (fun d => !(containsKey previous d.mac))
    current hcur m]
  by_cases hcond : m ∈ current.map (·.mac) ∧ m ∉ previous.map (·.1)
  · rw [if_pos hcond]
    obtain ⟨d, hd, hdm⟩ := List.mem_map.mp hcond.1
    have hck : containsKey previous m = false := by
      cases hv : containsKey previous m
      · rfl
      · exact absurd ((containsKey_iff_mem_keys previous m).mp hv) hcond.2
    have hany : current.any (fun d => (d.mac == m) && !(containsKey previous d.mac))
        = true := by
      apply List.any_eq_true.mpr
      exact ⟨d, hd, by simp [hdm, hck]⟩
    rw [hany]
    rfl
  · rw [if_neg hcond]
    have hany : current.any (fun d => (d.mac == m) && !(containsKey previous d.mac))
        = false := by
      rw [List.any_eq_false]
      intro d hd
      by_cases hdm : d.mac = m
      · have hmem : m ∈ current.map (·.mac) := List.mem_map.mpr ⟨d, hd, hdm⟩
        have hprevmem : m ∈ previous.map (·.1) := by
          by_contra hnp
          exact hcond ⟨hmem, hnp⟩
        have hck : containsKey previous d.mac = true := by
          rw [hdm]
          exact (containsKey_iff_mem_keys previous m).mpr hprevmem
        simp [hck]
      · have hb : (d.mac == m : Bool) = false := beq_eq_false_iff_ne.mpr hdm
        simp [hb]
    rw [hany]
    rfl

lemma countOfflineFor_detect (previous : List (String × DeviceSnapshot))
    (current : List DeviceSnapshot) (m : String)
    (hprev : (previous.map (·.1)).Nodup) :
    countOfflineFor m (detect_and_emit_changes previous current)
      = if m ∈ previous.map (·.1) ∧ m ∉ current.map (·.mac) then 1 else 0 := by
  unfold countOfflineFor detect_and_emit_changes
  rw [List.filter_append, List.filter_append, List.length_append, List.length_append]
  have hA : (((current.filter (fun d => !(containsKey previous d.mac))).map
      (fun d => NetworkEvent.newDeviceDiscovered d.ip d.mac d.hostname d.device_type)).filter
        (fun e => match e with
          | .deviceWentOffline mac _ _ => mac == m
          | _ => false)) = [] := by
    apply List.filter_eq_nil_iff.mpr
    intro e he
    obtain ⟨d, _, rfl⟩ := List.mem_map.mp he
    simp
  have hC : ((current.filterMap (fun d =>
      match mapGet previous d.mac with
      | some prev_device =>
          if prev_device.ip ≠ d.ip then
            some (NetworkEvent.deviceIpChanged d.mac prev_device.ip d.ip)
          else none
      | none => none)).filter
        (fun e => match e with
          | .deviceWentOffline mac _ _ => mac == m
          | _ => false)) = [] := by
    apply List.filter_eq_nil_iff.mpr
    intro e he
    obtain ⟨d, _, hd⟩ := List.mem_filterMap.mp he
    cases hm : mapGet previous d.mac with
    | none => rw [hm] at hd; cases hd
    | some pd =>
      rw [hm] at hd
      by_cases hip : pd.ip ≠ d.ip
      · simp only [hip, if_true] at hd
        rw [if_pos hip] at hd
        cases hd
        simp
      · simp [hip] at hd
  rw [hA, hC]
  simp only [List.length_nil, Nat.add_zero, Nat.zero_add]
  rw [List.filter_map, List.length_map, List.filter_filter]
  have hpt : (previous.filter (fun p =>
        ((fun e => match e with
          | NetworkEvent.deviceWentOffline mac _ _ => mac == m
          | _ => false) ∘ (fun p => NetworkEvent.deviceWentOffline p.1 p.2.ip p.2.hostname)) p
        && !((current.map (·.mac)).contains p.1)))
      = previous.filter (fun p => (p.1 == m) && !((current.map (·.mac)).contains p.1)) := rfl
  rw [hpt, length_filter_key_nodup (·.1)
    (fun p => !((current.map (·.mac)).contains p.1)) previous hprev m]
  by_cases hcond : m ∈ previous.map (·.1) ∧ m ∉ current.map (·.mac)
  · rw [if_pos hcond]
    obtain ⟨p, hp, hpm⟩ := List.mem_map.mp hcond.1
    have hck : (current.map (·.mac)).contains m = false := by
      cases hv : (current.map (·.mac)).contains m
      · rfl
      · exact absurd ((contains_iff_mem (current.map (·.mac)) m).mp hv) hcond.2
    have hany : previous.any (fun p => (p.1 == m) && !((current.map (·.mac)).contains p.1))
        = true := by
      apply List.any_eq_true.mpr
      refine ⟨p, hp, ?_⟩
      rw [Bool.and_eq_true]
      refine ⟨beq_iff_eq.mpr hpm, ?_⟩
      rw [hpm, hck]
      rfl
    rw [hany]
    rfl
  · rw [if_neg hcond]
    have hany : previous.any (fun p => (p.1 == m) && !((current.map (·.mac)).contains p.1))
        = false := by
      rw [List.any_eq_false]
      intro p hp
      by_cases hpm : p.1 = m
      · have hmem : m ∈ previous.map (·.1) := List.mem_map.mpr ⟨p, hp, hpm⟩
        have hcurmem : m ∈ current.map (·.mac) := by
          by_contra hnc
          exact hcond ⟨hmem, hnc⟩
        have hck : (current.map (·.mac)).contains p.1 = true := by
          rw [hpm]
          exact (contains_iff_mem (current.map (·.mac)) m).mpr hcurmem
        rw [hck]
        simp
      · have hb : (p.1 == m : Bool) = false := beq_eq_false_iff_ne.mpr hpm
        rw [hb]
        simp
    rw [hany]
    rfl

lemma countIpChangedFor_detect (previous : List (String × DeviceSnapshot))
    (current : List DeviceSnapshot) (m : String)
    (hcur : (current.map (·.mac)).Nodup) :
    countIpChangedFor m (detect_and_emit_changes previous current)
      = if ipChangedCond previous current m then 1 else 0 := by
  unfold countIpChangedFor detect_and_emit_changes
  rw [List.filter_append, List.filter_append, List.length_append, List.length_append]
  have hA : (((current.filter (fun d => !(containsKey previous d.mac))).map
      (fun d => NetworkEvent.newDeviceDiscovered d.ip d.mac d.hostname d.device_type)).filter
        (fun e => match e with
          | .deviceIpChanged mac _ _ => mac == m
          | _ => false)) = [] := by
    apply List.filter_eq_nil_iff.mpr
    intro e he
    obtain ⟨d, _, rfl⟩ := List.mem_map.mp he
    simp
  have hB : (((previous.filter (fun p => !((current.map (·.mac)).contains p.1))).map
      (fun p => NetworkEvent.deviceWentOffline p.1 p.2.ip p.2.hostname)).filter
        (fun e => match e with
          | .deviceIpChanged mac _ _ => mac == m
          | _ => false)) = [] := by
    apply List.filter_eq_nil_iff.mpr
    intro e he
    obtain ⟨p, _, rfl⟩ := List.mem_map.mp he
    simp
  rw [hA, hB]
  simp only [List.length_nil, Nat.add_zero, Nat.zero_add]
  rw [length_filter_filterMap]
  have hpt : ∀ d ∈ current,
      ((fun a => (((match mapGet previous a.mac with
          | some prev_device =>
              if prev_device.ip ≠ a.ip then
                some (NetworkEvent.deviceIpChanged a.mac prev_device.ip a.ip)
              else none
          | none => none).map (fun e => match e with
            | NetworkEvent.deviceIpChanged mac _ _ => mac == m
            | _ => false)).getD false)) d)
        = ((d.mac == m)
            && (((mapGet previous d.mac).map (fun pd => pd.ip != d.ip)).getD false)) := by
    intro d _
    cases hm : mapGet previous d.mac with
    | none => simp [hm]
    | some pd =>
      by_cases hip : pd.ip ≠ d.ip
      · have hb : (pd.ip != d.ip : Bool) = true := by
          simp [bne_iff_ne, hip]
        simp only [hm]
        rw [if_pos hip]
        simp [hb]
      · have he : pd.ip = d.ip := not_not.mp (by simpa using hip)
        have hb : (pd.ip != d.ip : Bool) = false := by
          simp [he]
        simp only [hm]
        rw [if_neg hip]
        simp [hb]
  have hfe : (current.filter (fun a =>
        (((match mapGet previous a.mac with
          | some prev_device =>
              if prev_device.ip ≠ a.ip then
                some (NetworkEvent.deviceIpChanged a.mac prev_device.ip a.ip)
              else none
          | none => none).map (fun e => match e with
            | NetworkEvent.deviceIpChanged mac _ _ => mac == m
            | _ => false)).getD false)))
      = current.filter (fun d => (d.mac == m)
          && (((mapGet previous d.mac).map (fun pd => pd.ip != d.ip)).getD false)) :=
    List.filter_congr hpt
  have hkey : (current.filter (fun d => (d.mac == m)
        && (((mapGet previous d.mac).map (fun pd => pd.ip != d.ip)).getD false))).length
      = if ipChangedCond previous current m then 1 else 0 := by
    rw [length_filter_key_nodup (·.mac)
      (fun d => ((mapGet previous d.mac).map (fun pd => pd.ip != d.ip)).getD false)
      current hcur m]
    rfl
  exact (congrArg List.length hfe).trans hkey

/-- What claim C1 asserts of the diff, for a previous map, a current list and
a mac `m`: exactly one `NewDeviceDiscovered` when `m` is current-only, exactly
one `DeviceWentOffline` when previous-only, exactly one `DeviceIpChanged`
when in both with a changed ip (and then, by the first two counts, neither a
new nor an offline event), no events at all when current equals previous, and
all new events precede all offline events, which precede all ip-change
events. -/
def DiffSpec (previous : List (String × DeviceSnapshot))
    (current : List DeviceSnapshot) (m : String) : Prop :=
  (countNewFor m (detect_and_emit_changes previous current)
      = if m ∈ current.map (·.mac) ∧ m ∉ previous.map (·.1) then 1 else 0)
  ∧ (countOfflineFor m (detect_and_emit_changes previous current)
      = if m ∈ previous.map (·.1) ∧ m ∉ current.map (·.mac) then 1 else 0)
  ∧ (countIpChangedFor m (detect_and_emit_changes previous current)
      = if ipChangedCond previous current m then 1 else 0)
  ∧ ((∀ d ∈ current, mapGet previous d.mac = some d)
      → (∀ p ∈ previous, p.1 ∈ current.map (·.mac))
      → detect_and_emit_changes previous current = [])
  ∧ (∃ A B C, detect_and_emit_changes previous current = A ++ B ++ C
      ∧ (∀ e ∈ A, ∃ ip mac hn dt, e = NetworkEvent.newDeviceDiscovered ip mac hn dt)
      ∧ (∀ e ∈ B, ∃ mac ip hn, e = NetworkEvent.deviceWentOffline mac ip hn)
      ∧ (∀ e ∈ C, ∃ mac o n, e = NetworkEvent.deviceIpChanged mac o n))

/-- C1 (amended): the stated diff semantics of `detect_and_emit_changes`,
under the `HashMap` key-uniqueness invariant of `previous` and the additional
hypothesis — forced by the counterexample — that the macs of the `current`
snapshot list are pairwise distinct. -/
theorem detect_and_emit_changes_diff (previous : List (String × DeviceSnapshot))
    (current : List DeviceSnapshot) (m : String)
    (hprev : (previous.map (·.1)).Nodup) (hcur : (current.map (·.mac)).Nodup) :
    DiffSpec previous current m := by
  refine ⟨countNewFor_detect previous current m hcur,
    countOfflineFor_detect previous current m hprev,
    countIpChangedFor_detect previous current m hcur, ?_, ?_⟩
  · intro hcc hpc
    unfold detect_and_emit_changes
    have h1 : current.filter (fun d => !(containsKey previous d.mac)) = [] := by
      apply List.filter_eq_nil_iff.mpr
      intro d hd
      have hck : containsKey previous d.mac = true := by
        unfold containsKey
        rw [hcc d hd]
        rfl
      simp [hck]
    have h2 : previous.filter (fun p => !((current.map (·.mac)).contains p.1)) = [] := by
      apply List.filter_eq_nil_iff.mpr
      intro p hp
      have hck : (current.map (·.mac)).contains p.1 = true :=
        (contains_iff_mem _ _).mpr (hpc p hp)
      rw [hck]
      decide
    have h3 : current.filterMap (fun d =>
        match mapGet previous d.mac with
        | some prev_device =>
            if prev_device.ip ≠ d.ip then
              some (NetworkEvent.deviceIpChanged d.mac prev_device.ip d.ip)
            else none
        | none => none) = [] := by
      apply List.filterMap_eq_nil_iff.mpr
      intro d hd
      rw [hcc d hd]
      simp
    rw [h1, h2, h3]
    rfl
  · refine ⟨_, _, _, rfl, ?_, ?_, ?_⟩
    · intro e he
      obtain ⟨d, _, rfl⟩ := List.mem_map.mp he
      exact ⟨d.ip, d.mac, d.hostname, d.device_type, rfl⟩
    · intro e he
      obtain ⟨p, _, rfl⟩ := List.mem_map.mp he
      exact ⟨p.1, p.2.ip, p.2.hostname, rfl⟩
    · intro e he
      obtain ⟨d, _, hd⟩ := List.mem_filterMap.mp he
      cases hm : mapGet previous d.mac with
      | none => rw [hm] at hd; cases hd
      | some pd =>
        rw [hm] at hd
        by_cases hip : pd.ip ≠ d.ip
        · simp only [hip, if_true] at hd
          rw [if_pos hip] at hd
          cases hd
          exact ⟨d.mac, pd.ip, d.ip, rfl⟩
        · simp [hip] at hd

/-- Counterexample to C1 as stated: when the current snapshot list carries
the same mac twice (two IPs resolved to one MAC by ARP), the diff emits two
`NewDeviceDiscovered` events for that single new mac, not exactly one. -/
theorem detect_and_emit_changes_duplicate_mac :
    countNewFor "AA:BB:CC:DD:EE:01"
      (detect_and_emit_changes []
        [⟨"AA:BB:CC:DD:EE:01", 5, none, "UNKNOWN", true⟩,
         ⟨"AA:BB:CC:DD:EE:01", 6, none, "UNKNOWN", true⟩]) = 2 := rfl

/-- Witness for C1 (amended) at a concrete previous/current pair. -/
theorem detect_and_emit_changes_diff_witness :
    DiffSpec [("AA:BB:CC:DD:EE:01", ⟨"AA:BB:CC:DD:EE:01", 5, none, "UNKNOWN", true⟩)]
      [⟨"AA:BB:CC:DD:EE:01", 6, none, "UNKNOWN", true⟩,
       ⟨"AA:BB:CC:DD:EE:02", 7, none, "PC", true⟩]
      "AA:BB:CC:DD:EE:02" :=
  detect_and_emit_changes_diff
    [("AA:BB:CC:DD:EE:01", ⟨"AA:BB:CC:DD:EE:01", 5, none, "UNKNOWN", true⟩)]
    [⟨"AA:BB:CC:DD:EE:01", 6, none, "UNKNOWN", true⟩,
     ⟨"AA:BB:CC:DD:EE:02", 7, none, "PC", true⟩]
    "AA:BB:CC:DD:EE:02" (by decide) (by decide)

/-- C7: Calling BackgroundMonitor::start while monitoring is already running
returns the AlreadyRunning error, does not spawn a second scan loop (`loops`
counts spawned loop tasks), emits nothing, and leaves the monitor's state
(interval_seconds, scan_count, previous_devices, all of it) unchanged. -/
theorem start_already_running (c : MonitorConsts) (s : MonitorState)
    (interval : Option Nat) (h : s.is_running = true) :
    BackgroundMonitor.start c s interval
      = (.error "Monitoring already running", s, []) := by
  unfold BackgroundMonitor.start
  simp [h]

/-- A monitor that is mid-session: running, three scans done, one loop task
spawned. -/
def runningState : MonitorState :=
  { is_running := true
    interval_seconds := 60
    scan_count := 3
    last_scan_time := some "2026-01-01T00:00:00Z"
    previous_devices := [("AA:BB:CC:DD:EE:01", ⟨"AA:BB:CC:DD:EE:01", 5, none, "UNKNOWN", true⟩)]
    loops := 1 }

/-- Concrete monitor-interval constants for the witnesses (values are
irrelevant to the properties; the config constants are not fixed by the
spec). -/
def mc : MonitorConsts := ⟨60, 10, 3600⟩

/-- Witness for C7 at a concrete running monitor. -/
theorem start_already_running_witness :
    BackgroundMonitor.start mc runningState (some 45)
      = (.error "Monitoring already running", runningState, []) :=
  start_already_running mc runningState (some 45) (by rfl)

/-- The operation sequence refuting monotonicity of `scan_count`: start,
one successful scan, stop, start again. -/
def restartOps : List MonitorOp :=
  [.start none, .loopIter sampleMonitorOracles sampleDnsOracle "t1", .stop, .start none]

/-- Counterexample to C3 as stated: `BackgroundMonitor::start` stores 0 into
`scan_count`, so across a stop/start boundary the observable value drops from
1 back to 0 — the trace `[0, 0, 1, 1, 0]` is not monotonically increasing. -/
theorem scan_count_reset_on_restart :
    scan_count_trace mc (BackgroundMonitor.new mc) restartOps = [0, 0, 1, 1, 0]
      ∧ ¬ List.Chain' (· ≤ ·)
          (scan_count_trace mc (BackgroundMonitor.new mc) restartOps) := by
  have h : scan_count_trace mc (BackgroundMonitor.new mc) restartOps
      = [0, 0, 1, 1, 0] := rfl
  refine ⟨h, ?_⟩
  rw [h]
  intro hch
  simp [List.chain'_cons] at hch

/-- C3 (amended): `scan_count` never decreases under `stop` and loop
iterations — it is monotone within one monitoring session — but `start` (when
the monitor is not running) resets it to 0, so it can decrease across a
stop/start boundary. -/
theorem scan_count_monotone_in_session (c : MonitorConsts) (s : MonitorState)
    (op : MonitorOp) :
    ((∀ i, op ≠ MonitorOp.start i) →
        s.scan_count ≤ (monitor_step c s op).1.scan_count)
    ∧ (∀ i, s.is_running = false →
        (monitor_step c s (MonitorOp.start i)).1.scan_count = 0) := by
  constructor
  · intro hns
    cases op with
    | start i => exact absurd rfl (hns i)
    | stop => exact Nat.le_refl _
    | loopIter o dns now =>
      unfold monitor_step loop_iteration
      by_cases hr : s.is_running
      · rcases hrun : run_background_scan o dns with ⟨prog, res⟩
        cases res with
        | ok devices =>
          simp [hr, hrun]
        | error e =>
          simp [hr, hrun]
      · simp [hr]
  · intro i hnr
    unfold monitor_step BackgroundMonitor.start
    simp [hnr]

/-- Witness for C3 (amended): a `stop` does not decrease the count of a
running monitor, and a `start` on a fresh monitor yields count 0. -/
theorem scan_count_monotone_in_session_witness :
    (runningState.scan_count
        ≤ (monitor_step mc runningState MonitorOp.stop).1.scan_count)
    ∧ (monitor_step mc (BackgroundMonitor.new mc)
        (MonitorOp.start (some 45))).1.scan_count = 0 :=
  ⟨(scan_count_monotone_in_session mc runningState MonitorOp.stop).1
      (fun i h => MonitorOp.noConfusion h),
   (scan_count_monotone_in_session mc (BackgroundMonitor.new mc)
      (MonitorOp.start (some 45))).2 (some 45) (by rfl)⟩

/-- Every event `run_background_scan` emits through its progress callback is
a `ScanProgress` event. -/
lemma run_background_scan_progress_only (o : MonitorScanOracles) (dns : DnsOracle) :
    ∀ e ∈ (run_background_scan o dns).1,
      ∃ ph pc msg, e = NetworkEvent.scanProgress ph pc msg := by
  intro e he
  cases hI : o.find_valid_interface with
  | error e1 =>
    simp only [run_background_scan, hI] at he
    simp at he
    exact ⟨_, _, _, he⟩
  | ok interface =>
    cases hsub : calculate_subnet_ips interface with
    | error e2 =>
      simp only [run_background_scan, hI, hsub] at he
      simp at he
      exact ⟨_, _, _, he⟩
    | ok v =>
      obtain ⟨subnet, ips⟩ := v
      cases hA : o.arp with
      | error e3 =>
        simp only [run_background_scan, hI, hsub, hA] at he
        simp at he
        rcases he with he | he <;> exact ⟨_, _, _, he⟩
      | ok arp_hosts =>
        simp only [run_background_scan, hI, hsub, hA] at he
        simp at he
        rcases he with rfl | rfl | rfl | rfl | rfl <;> exact ⟨_, _, _, rfl⟩

/-- What claim C9 asserts of one loop pass whose scan failed with error `e`
after emitting `prog`: the retained state is untouched (`previous_devices`,
`last_scan_time`), the loop keeps running, and the pass emits exactly
`ScanStarted`, the scan's progress events, and one `MonitoringError` — no
device event and no `ScanCompleted`. -/
def FailedScanSpec (s : MonitorState) (o : MonitorScanOracles) (dns : DnsOracle)
    (now : String) (e : String) (prog : List NetworkEvent) : Prop :=
  (loop_iteration s o dns now).1.previous_devices = s.previous_devices
  ∧ (loop_iteration s o dns now).1.last_scan_time = s.last_scan_time
  ∧ (loop_iteration s o dns now).1.is_running = true
  ∧ (loop_iteration s o dns now).2
      = [NetworkEvent.scanStarted (s.scan_count + 1)] ++ prog
        ++ [NetworkEvent.monitoringError e]
  ∧ ∀ ev ∈ (loop_iteration s o dns now).2,
      (∀ ip mac hn dt, ev ≠ NetworkEvent.newDeviceDiscovered ip mac hn dt)
      ∧ (∀ mac ip hn, ev ≠ NetworkEvent.deviceWentOffline mac ip hn)
      ∧ (∀ mac oldIp newIp, ev ≠ NetworkEvent.deviceIpChanged mac oldIp newIp)
      ∧ (∀ n hosts dur, ev ≠ NetworkEvent.scanCompleted n hosts dur)

/-- C9: If a background scan iteration fails, the monitor loop's state is
unchanged by that iteration — previous_devices and last_scan_time keep their
prior values — no NewDeviceDiscovered, DeviceWentOffline, DeviceIpChanged or
ScanCompleted event is emitted for that scan (only MonitoringError besides
ScanStarted and the progress events), and the loop continues. -/
theorem loop_iteration_failure (s : MonitorState) (o : MonitorScanOracles)
    (dns : DnsOracle) (now : String) (e : String) (prog : List NetworkEvent)
    (hr : s.is_running = true) (hf : run_background_scan o dns = (prog, .error e)) :
    FailedScanSpec s o dns now e prog := by
  have hstep : loop_iteration s o dns now
      = ({ s with scan_count := s.scan_count + 1 },
         [NetworkEvent.scanStarted (s.scan_count + 1)] ++ prog
           ++ [NetworkEvent.monitoringError e]) := by
    unfold loop_iteration
    rw [hf]
    simp [hr]
  refine ⟨by rw [hstep], by rw [hstep], by rw [hstep]; exact hr, by rw [hstep], ?_⟩
  intro ev hev
  rw [hstep] at hev
  simp only [List.mem_append, List.mem_singleton] at hev
  rcases hev with (h0 | hp) | hm
  · subst h0
    refine ⟨?_, ?_, ?_, ?_⟩ <;> intros <;> simp
  · obtain ⟨ph, pc, msg, rfl⟩ :=
      run_background_scan_progress_only o dns ev (by rw [hf]; exact hp)
    refine ⟨?_, ?_, ?_, ?_⟩ <;> intros <;> simp
  · subst hm
    refine ⟨?_, ?_, ?_, ?_⟩ <;> intros <;> simp

/-- Monitor-scan outcomes whose ARP phase fails (raw socket unavailable). -/
def failingMonitorOracles : MonitorScanOracles :=
  { sampleMonitorOracles with arp := .error "raw socket unavailable" }

/-- Witness for C9 at a concrete failing scan (ARP phase error on the `/30`
interface, after the INIT and ARP progress events). -/
theorem loop_iteration_failure_witness :
    FailedScanSpec runningState failingMonitorOracles sampleDnsOracle "t2"
      "ARP scan error: raw socket unavailable"
      [NetworkEvent.scanProgress "INIT" 5 "Finding network interface...",
       NetworkEvent.scanProgress "ARP" 20 "ARP scanning 2 hosts..."] :=
  loop_iteration_failure runningState failingMonitorOracles sampleDnsOracle "t2"
    "ARP scan error: raw socket unavailable"
    [NetworkEvent.scanProgress "INIT" 5 "Finding network interface...",
     NetworkEvent.scanProgress "ARP" 20 "ARP scanning 2 hosts..."]
    (by rfl) (by rfl)

/-- Inversion of a successful background scan: interface selection succeeded,
and every snapshot is online and distinct from the local address. -/
lemma run_background_scan_ok_devices (o : MonitorScanOracles) (dns : DnsOracle)
    (devices : List DeviceSnapshot)
    (hok : (run_background_scan o dns).2 = .ok devices) :
    ∃ interface, o.find_valid_interface = .ok interface
      ∧ ∀ d ∈ devices, d.is_online = true ∧ d.ip ≠ interface.ip := by
  cases hI : o.find_valid_interface with
  | error e1 => simp [run_background_scan, hI] at hok
  | ok interface =>
    cases hsub : calculate_subnet_ips interface with
    | error e2 => simp [run_background_scan, hI, hsub] at hok
    | ok v =>
      obtain ⟨subnet, ips⟩ := v
      cases hA : o.arp with
      | error e3 => simp [run_background_scan, hI, hsub, hA] at hok
      | ok arp_hosts =>
        refine ⟨interface, rfl, ?_⟩
        simp only [run_background_scan, hI, hsub, hA, Except.ok.injEq] at hok
        intro d hd
        rw [← hok] at hd
        obtain ⟨p, hp, rfl⟩ := List.mem_map.mp hd
        refine ⟨rfl, ?_⟩
        have := List.mem_filter.mp hp
        simpa using this.2

/-- Does an event carry this address in one of its device-event fields? -/
def mentions_ip (L : Nat) : NetworkEvent → Bool
  | .newDeviceDiscovered ip _ _ _ => ip == L
  | .deviceWentOffline _ last_ip _ => last_ip == L
  | .deviceIpChanged _ old_ip new_ip => old_ip == L || new_ip == L
  | _ => false

lemma mapGet_some_mem {α : Type} (m : List (String × α)) (k : String) (v : α)
    (h : mapGet m k = some v) : ∃ key, (key, v) ∈ m := by
  unfold mapGet at h
  cases hf : m.find? (fun p => p.1 == k) with
  | none => rw [hf] at h; cases h
  | some p =>
    rw [hf] at h
    have hm := List.mem_of_find?_eq_some hf
    cases h
    exact ⟨p.1, hm⟩

/-- The diff never mentions an address that appears in no snapshot on either
side. -/
lemma detect_and_emit_changes_not_local (L : Nat)
    (previous : List (String × DeviceSnapshot)) (current : List DeviceSnapshot)
    (hc : ∀ d ∈ current, d.ip ≠ L) (hp : ∀ p ∈ previous, p.2.ip ≠ L) :
    ∀ ev ∈ detect_and_emit_changes previous current, mentions_ip L ev = false := by
  intro ev hev
  unfold detect_and_emit_changes at hev
  simp only [List.mem_append] at hev
  rcases hev with (hn | ho) | hi
  · obtain ⟨d, hd, rfl⟩ := List.mem_map.mp hn
    have hdc := List.mem_of_mem_filter hd
    simp [mentions_ip, hc d hdc]
  · obtain ⟨p, hpm, rfl⟩ := List.mem_map.mp ho
    have hpp := List.mem_of_mem_filter hpm
    simp [mentions_ip, hp p hpp]
  · obtain ⟨d, hd, hfd⟩ := List.mem_filterMap.mp hi
    cases hm : mapGet previous d.mac with
    | none => rw [hm] at hfd; cases hfd
    | some pd =>
      rw [hm] at hfd
      by_cases hip : pd.ip ≠ d.ip
      · simp only [hip, if_true] at hfd
        rw [if_pos hip] at hfd
        cases hfd
        obtain ⟨key, hkey⟩ := mapGet_some_mem previous d.mac pd hm
        have h1 : pd.ip ≠ L := hp (key, pd) hkey
        have h2 : d.ip ≠ L := hc d hd
        simp [mentions_ip, h1, h2]
      · simp [hip] at hfd

/-- One monitor step keeps every retained snapshot online. -/
lemma monitor_step_online (c : MonitorConsts) (s : MonitorState) (op : MonitorOp)
    (hs : ∀ p ∈ s.previous_devices, p.2.is_online = true) :
    ∀ p ∈ (monitor_step c s op).1.previous_devices, p.2.is_online = true := by
  cases op with
  | start i =>
    by_cases hr : s.is_running
    · have he : monitor_step c s (.start i) = (s, []) := by
        simp only [monitor_step]
        unfold BackgroundMonitor.start
        simp [hr]
      rw [he]
      exact hs
    · have he : (monitor_step c s (.start i)).1.previous_devices
          = s.previous_devices := by
        simp only [monitor_step]
        unfold BackgroundMonitor.start
        simp [hr]
      rw [he]
      exact hs
  | stop => exact hs
  | loopIter o dns now =>
    by_cases hr : s.is_running
    · rcases hrun : run_background_scan o dns with ⟨prog, res⟩
      cases res with
      | ok devices =>
        have he : (monitor_step c s (.loopIter o dns now)).1.previous_devices
            = devices.map (fun d => (d.mac, d)) := by
          simp only [monitor_step]
          unfold loop_iteration
          rw [hrun]
          simp [hr]
        rw [he]
        intro p hp
        obtain ⟨d, hd, rfl⟩ := List.mem_map.mp hp
        obtain ⟨interface, _, hdev⟩ :=
          run_background_scan_ok_devices o dns devices (by rw [hrun])
        exact (hdev d hd).1
      | error e =>
        have he : (monitor_step c s (.loopIter o dns now)).1.previous_devices
            = s.previous_devices := by
          simp only [monitor_step]
          unfold loop_iteration
          rw [hrun]
          simp [hr]
        rw [he]
        exact hs
    · have he : monitor_step c s (.loopIter o dns now) = (s, []) := by
        simp only [monitor_step]
        unfold loop_iteration
        simp [hr]
      rw [he]
      exact hs

/-- One monitor step keeps snapshots off the local address and emits no event
mentioning it, provided every interface a loop pass may select has that
address. -/
lemma monitor_step_not_local (c : MonitorConsts) (L : Nat) (s : MonitorState)
    (op : MonitorOp)
    (hs : ∀ p ∈ s.previous_devices, p.2.ip ≠ L)
    (hop : ∀ o dns now, op = MonitorOp.loopIter o dns now →
      ∀ interface, o.find_valid_interface = .ok interface → interface.ip = L) :
    (∀ p ∈ (monitor_step c s op).1.previous_devices, p.2.ip ≠ L)
      ∧ ∀ ev ∈ (monitor_step c s op).2, mentions_ip L ev = false := by
  cases op with
  | start i =>
    by_cases hr : s.is_running
    · have he : monitor_step c s (.start i) = (s, []) := by
        simp only [monitor_step]
        unfold BackgroundMonitor.start
        simp [hr]
      rw [he]
      exact ⟨hs, by intro ev hev; cases hev⟩
    · have h1 : (monitor_step c s (.start i)).1.previous_devices
          = s.previous_devices := by
        simp only [monitor_step]
        unfold BackgroundMonitor.start
        simp [hr]
      refine ⟨by rw [h1]; exact hs, ?_⟩
      intro ev hev
      simp only [monitor_step] at hev
      unfold BackgroundMonitor.start at hev
      simp [hr] at hev
      subst hev
      rfl
  | stop => exact ⟨hs, by intro ev hev; cases hev⟩
  | loopIter o dns now =>
    by_cases hr : s.is_running
    · rcases hrun : run_background_scan o dns with ⟨prog, res⟩
      cases res with
      | ok devices =>
        obtain ⟨interface, hI, hdev⟩ :=
          run_background_scan_ok_devices o dns devices (by rw [hrun])
        have hL : interface.ip = L := hop o dns now rfl interface hI
        have hdevL : ∀ d ∈ devices, d.ip ≠ L := by
          intro d hd
          rw [← hL]
          exact (hdev d hd).2
        have h1 : (monitor_step c s (.loopIter o dns now)).1.previous_devices
            = devices.map (fun d => (d.mac, d)) := by
          simp only [monitor_step]
          unfold loop_iteration
          rw [hrun]
          simp [hr]
        have h2 : (monitor_step c s (.loopIter o dns now)).2
            = [NetworkEvent.scanStarted (s.scan_count + 1)] ++ prog
              ++ detect_and_emit_changes s.previous_devices devices
              ++ [NetworkEvent.scanCompleted (s.scan_count + 1) devices.length 0] := by
          simp only [monitor_step]
          unfold loop_iteration
          rw [hrun]
          simp [hr]
        constructor
        · rw [h1]
          intro p hp
          obtain ⟨d, hd, rfl⟩ := List.mem_map.mp hp
          exact hdevL d hd
        · intro ev hev
          rw [h2] at hev
          simp only [List.mem_append, List.mem_singleton] at hev
          rcases hev with ((h0 | hpr) | hch) | hcm
          · subst h0; rfl
          · obtain ⟨ph, pc, msg, rfl⟩ :=
              run_background_scan_progress_only o dns ev (by rw [hrun]; exact hpr)
            rfl
          · exact detect_and_emit_changes_not_local L s.previous_devices devices
              hdevL hs ev hch
          · subst hcm; rfl
      | error e =>
        have h1 : (monitor_step c s (.loopIter o dns now)).1.previous_devices
            = s.previous_devices := by
          simp only [monitor_step]
          unfold loop_iteration
          rw [hrun]
          simp [hr]
        have h2 : (monitor_step c s (.loopIter o dns now)).2
            = [NetworkEvent.scanStarted (s.scan_count + 1)] ++ prog
              ++ [NetworkEvent.monitoringError e] := by
          simp only [monitor_step]
          unfold loop_iteration
          rw [hrun]
          simp [hr]
        refine ⟨by rw [h1]; exact hs, ?_⟩
        intro ev hev
        rw [h2] at hev
        simp only [List.mem_append, List.mem_singleton] at hev
        rcases hev with (h0 | hpr) | hm
        · subst h0; rfl
        · obtain ⟨ph, pc, msg, rfl⟩ :=
            run_background_scan_progress_only o dns ev (by rw [hrun]; exact hpr)
          rfl
        · subst hm; rfl
    · have he : monitor_step c s (.loopIter o dns now) = (s, []) := by
        simp only [monitor_step]
        unfold loop_iteration
        simp [hr]
      rw [he]
      exact ⟨hs, by intro ev hev; cases hev⟩

lemma monitor_run_online (c : MonitorConsts) (ops : List MonitorOp) :
    ∀ s : MonitorState, (∀ p ∈ s.previous_devices, p.2.is_online = true) →
      ∀ p ∈ (monitor_run c s ops).1.previous_devices, p.2.is_online = true := by
  induction ops with
  | nil => exact fun s hs => hs
  | cons op ops ih =>
    intro s hs
    exact ih (monitor_step c s op).1 (monitor_step_online c s op hs)

lemma monitor_run_not_local (c : MonitorConsts) (L : Nat) (ops : List MonitorOp) :
    ∀ s : MonitorState, (∀ p ∈ s.previous_devices, p.2.ip ≠ L) →
      (∀ op ∈ ops, ∀ o dns now, op = MonitorOp.loopIter o dns now →
        ∀ interface, o.find_valid_interface = .ok interface → interface.ip = L) →
      (∀ p ∈ (monitor_run c s ops).1.previous_devices, p.2.ip ≠ L)
        ∧ ∀ ev ∈ (monitor_run c s ops).2, mentions_ip L ev = false := by
  induction ops with
  | nil => exact fun s hs _ => ⟨hs, by intro ev hev; cases hev⟩
  | cons op ops ih =>
    intro s hs hops
    have hstep := monitor_step_not_local c L s op hs
      (fun o dns now he => hops op (List.mem_cons_self op ops) o dns now he)
    have hrest := ih (monitor_step c s op).1 hstep.1
      (fun op' hop' => hops op' (List.mem_cons_of_mem op hop'))
    refine ⟨hrest.1, ?_⟩
    intro ev hev
    simp only [monitor_run, List.mem_append] at hev
    rcases hev with h1 | h2
    · exact hstep.2 ev h1
    · exact hrest.2 ev h2

/-- What claim C10 asserts: every snapshot of the given successful background
scan is online and off the local address; along any run of the monitor from a
fresh state the status always reports as many online devices as total
devices; and when every loop pass selects an interface with the local address
`L`, no emitted event mentions `L` — the local machine never appears in the
monitor's device events. -/
def MonitorLocalSpec (c : MonitorConsts) (L : Nat) (ops : List MonitorOp)
    (interface : InterfaceInfo) (devices : List DeviceSnapshot) : Prop :=
  (∀ d ∈ devices, d.is_online = true ∧ d.ip ≠ interface.ip)
  ∧ ((BackgroundMonitor.status (monitor_run c (BackgroundMonitor.new c) ops).1).devices_online
      = (BackgroundMonitor.status (monitor_run c (BackgroundMonitor.new c) ops).1).devices_total)
  ∧ (∀ ev ∈ (monitor_run c (BackgroundMonitor.new c) ops).2, mentions_ip L ev = false)

/-- C10: Every DeviceSnapshot produced by a background scan has
is_online = true and an ip different from the local interface's ip;
consequently status() always reports devices_online equal to devices_total,
and the local machine never appears in the monitor's device events. -/
theorem monitor_local_machine (c : MonitorConsts) (L : Nat) (ops : List MonitorOp)
    (o : MonitorScanOracles) (dns : DnsOracle) (interface : InterfaceInfo)
    (devices : List DeviceSnapshot)
    (hI : o.find_valid_interface = .ok interface)
    (hok : (run_background_scan o dns).2 = .ok devices)
    (hops : ∀ op ∈ ops, ∀ o' dns' now, op = MonitorOp.loopIter o' dns' now →
      ∀ interface', o'.find_valid_interface = .ok interface' → interface'.ip = L) :
    MonitorLocalSpec c L ops interface devices := by
  refine ⟨?_, ?_, ?_⟩
  · obtain ⟨interface', hI', hdev⟩ := run_background_scan_ok_devices o dns devices hok
    have : interface' = interface := by
      have := hI'.symm.trans hI
      exact Except.ok.inj this
    subst this
    exact hdev
  · have honline := monitor_run_online c ops (BackgroundMonitor.new c)
      (by intro p hp; cases hp)
    unfold BackgroundMonitor.status
    have hself : ((monitor_run c (BackgroundMonitor.new c) ops).1.previous_devices.filter
        (fun p => p.2.is_online)) = (monitor_run c (BackgroundMonitor.new c) ops).1.previous_devices := by
      apply List.filter_eq_self.mpr
      intro p hp
      exact honline p hp
    rw [hself]
  · exact (monitor_run_not_local c L ops (BackgroundMonitor.new c)
      (by intro p hp; cases hp) hops).2

/-- The operation sequence for the C10 witness: start, one successful scan on
the `/30` interface, stop. -/
def sessionOps : List MonitorOp :=
  [.start none, .loopIter sampleMonitorOracles sampleDnsOracle "t1", .stop]

/-- Witness for C10 at a concrete run: one scan on the `/30` interface
(local address 6) that found the device at address 5. -/
theorem monitor_local_machine_witness :
    MonitorLocalSpec mc 6 sessionOps sampleIface
      [⟨"AA:BB:CC:DD:EE:01", 5, none, "UNKNOWN", true⟩] :=
  monitor_local_machine mc 6 sessionOps sampleMonitorOracles sampleDnsOracle
    sampleIface [⟨"AA:BB:CC:DD:EE:01", 5, none, "UNKNOWN", true⟩]
    (by rfl) (by rfl)
    (by
      intro op hop o' dns' now heq interface' hIf
      simp only [sessionOps, List.mem_cons, List.mem_singleton] at hop
      rcases hop with rfl | rfl | (rfl | h)
      · cases heq
      · cases heq
        have : Except.ok (ε := String) sampleIface = Except.ok interface' := hIf
        cases Except.ok.inj this
        rfl
      · cases heq
      · cases h)

end STMAHM
